import Mathlib

/-!
Verification of the conflict-safe batch file-operation dispatcher of
ydmenu.py (Yandex Disk menu actions for KDE Dolphin).

The filesystem is modelled as the list of existing paths; external
collaborators (the yandex-disk daemon, the clipboard, shutil operations)
are modelled by response functions in an environment record; every
observable side effect is recorded as an event in a trace.  Unbounded
Python `while True` search loops are modelled with an explicit fuel
parameter; fuel exhaustion is a distinct abort value that corresponds to
the Python loop not having found an answer within the bound.
-/

namespace YdMenu

/-! ## Python string/path primitives

All string operations are implemented over the character list of the
string, so that they evaluate by kernel reduction on concrete inputs. -/

/-- Number of characters. -/
def charLen (s : String) : Nat := s.toList.length

/-- First n characters (Python s[:n]). -/
def charTake (s : String) (n : Nat) : String := String.mk (s.toList.take n)

/-- All but the first n characters (Python s[n:]). -/
def charDrop (s : String) (n : Nat) : String := String.mk (s.toList.drop n)

/-- Python s.startswith(pre). -/
def strStartsWith (s pre : String) : Bool := pre.toList.isPrefixOf s.toList

/-- Python s.lower(). -/
def strToLower (s : String) : String := String.mk (s.toList.map Char.toLower)

/-- Python s.strip(). -/
def pyStrip (s : String) : String :=
  String.mk (((s.toList.dropWhile Char.isWhitespace).reverse.dropWhile
    Char.isWhitespace).reverse)

/-- Drop trailing characters satisfying the predicate. -/
def dropTrailing (p : Char → Bool) (s : String) : String :=
  String.mk ((s.toList.reverse.dropWhile p).reverse)

/-- Splitting scan: the separator is c0 :: sep (hence non-empty).  The scan
consumes at least one character per step, so the structural fuel argument,
initialized with the length of the scanned list, is never exhausted. -/
def splitOnGo (c0 : Char) (sep : List Char) : Nat → List Char → List Char → List (List Char)
  | _, [], acc => [acc.reverse]
  | 0, l, acc => [acc.reverse ++ l]
  | fuel + 1, ch :: rest, acc =>
    if (c0 :: sep).isPrefixOf (ch :: rest) then
      acc.reverse :: splitOnGo c0 sep fuel ((ch :: rest).drop (c0 :: sep).length) []
    else
      splitOnGo c0 sep fuel rest (ch :: acc)

/-- Python s.split(sep) for a non-empty separator: pieces between
non-overlapping occurrences of sep, scanned left to right. -/
def pySplit (s sep : String) : List String :=
  match sep.toList with
  | [] => [s]
  | c :: cs => (splitOnGo c cs s.toList.length s.toList []).map String.mk

/-- Python sep.join(xs). -/
def pyJoin (sep : String) (xs : List String) : String :=
  String.mk (List.intercalate sep.toList (xs.map String.toList))

/-- Index of the last occurrence of a character in a string
(Python str.rfind, counted in characters). -/
def lastIdxOf (c : Char) (s : String) : Option Nat :=
  match (s.toList.reverse.findIdx? (fun x => x = c)) with
  | none => none
  | some j => some (s.toList.length - 1 - j)

/-- os.path.basename: everything after the last slash. -/
def pyBasename (p : String) : String :=
  match lastIdxOf '/' p with
  | none => p
  | some i => charDrop p (i + 1)

/-- os.path.dirname: the head up to the last slash, with trailing slashes
stripped unless the head is all slashes. -/
def pyDirname (p : String) : String :=
  match lastIdxOf '/' p with
  | none => ""
  | some i =>
    let head := charTake p (i + 1)
    if head.toList.all (fun ch => ch = '/') then head
    else dropTrailing (fun ch => ch = '/') head

/-- pathlib PurePath.suffix of the final component: the part from the last
dot, provided that dot is neither the first nor the last character of the
component. -/
def pySuffix (p : String) : String :=
  let name := pyBasename p
  match lastIdxOf '.' name with
  | none => ""
  | some i => if 0 < i ∧ i < charLen name - 1 then charDrop name i else ""

/-- pathlib PurePath.stem of the final component. -/
def pyStem (p : String) : String :=
  let name := pyBasename p
  match lastIdxOf '.' name with
  | none => name
  | some i => if 0 < i ∧ i < charLen name - 1 then charTake name i else name

/-- Python str.rstrip(os.sep). -/
def rstripSlashes (s : String) : String := dropTrailing (fun ch => ch = '/') s

/-- Python substring test `sub in s` for a non-empty pattern, via split:
the pattern occurs iff splitting produces at least two pieces. -/
def containsSub (s sub : String) : Bool := (pySplit s sub).length ≥ 2

/-- Python truthiness of an Optional[str]: None and the empty string are falsy. -/
def optTruthy : Option String → Bool
  | none => false
  | some s => s ≠ ""

/-! ## Constants (class Constants) -/

def ONE_BY_ONE_COMMANDS : List String :=
  ["PublishToYandexCom", "PublishToYandex", "UnpublishFromYandex", "UnpublishAllCopy"]

def ALL_AT_ONCE_COMMANDS : List String := ["FileAddToStream", "FileMoveToStream"]

def CLIPBOARD_COMMANDS : List String :=
  ["ClipboardPublishToCom", "ClipboardPublish", "ClipboardToStream"]

def WAIT_TIMEOUT : Nat := 30

/-! ## generate_unique_filename (YandexDiskMenu.generate_unique_filename)

The candidate at suffix index 0 is the unsuffixed name; the candidate at
index i >= 1 is `stem_i ext`, where a filename that starts with a dot is
treated as a stem with empty extension. -/

def uniqueCandidate (filename : String) (i : Nat) : String :=
  let namePart := if strStartsWith filename "." then filename else pyStem filename
  let extPart := if strStartsWith filename "." then "" else pySuffix filename
  if i = 0 then filename else namePart ++ "_" ++ toString i ++ extPart

/-- Whether the candidate at index i collides with an existing path in the
synced root, the stream directory, or the target directory. -/
def uniqueCollides (fs : List String) (yaDisk streamDir targetDir filename : String)
    (i : Nat) : Bool :=
  let n := uniqueCandidate filename i
  fs.contains (yaDisk ++ "/" ++ n) || fs.contains (streamDir ++ "/" ++ n)
    || fs.contains (targetDir ++ "/" ++ n)

def generateUniqueLoop (fs : List String) (yaDisk streamDir targetDir filename : String) :
    Nat → Nat → Option String
  | 0, _ => none
  | fuel + 1, i =>
    if uniqueCollides fs yaDisk streamDir targetDir filename i then
      generateUniqueLoop fs yaDisk streamDir targetDir filename fuel (i + 1)
    else some (uniqueCandidate filename i)

/-- generate_unique_filename: starting at index 0, return the first candidate
that exists in none of the three probed directories.  The fuel bounds the
Python `while True` loop; `none` means the bound was hit. -/
def generate_unique_filename (fuel : Nat) (fs : List String)
    (yaDisk streamDir targetDir filename : String) : Option String :=
  generateUniqueLoop fs yaDisk streamDir targetDir filename fuel 0

/-! ### Lemmas on the unique-name search -/

theorem generateUniqueLoop_spec (fs : List String) (ya st tgt fn : String) :
    ∀ (fuel i0 : Nat) (name : String),
      generateUniqueLoop fs ya st tgt fn fuel i0 = some name →
      ∃ i, i0 ≤ i ∧ name = uniqueCandidate fn i ∧
        uniqueCollides fs ya st tgt fn i = false ∧
        ∀ j, i0 ≤ j → j < i → uniqueCollides fs ya st tgt fn j = true := by
  intro fuel
  induction fuel with
  | zero => intro i0 name h; simp [generateUniqueLoop] at h
  | succ fuel ih =>
    intro i0 name h
    by_cases hc : uniqueCollides fs ya st tgt fn i0 = true
    · rw [generateUniqueLoop, if_pos hc] at h
      obtain ⟨i, hle, hname, hfree, hmin⟩ := ih (i0 + 1) name h
      refine ⟨i, by omega, hname, hfree, ?_⟩
      intro j hj1 hj2
      rcases Nat.lt_or_ge j (i0 + 1) with hj | hj
      · have : j = i0 := by omega
        rw [this]; exact hc
      · exact hmin j hj hj2
    · rw [generateUniqueLoop, if_neg hc] at h
      refine ⟨i0, le_refl _, (Option.some.injEq _ _).mp h.symm, ?_, ?_⟩
      · simpa using hc
      · intro j hj1 hj2; omega

/-! ## Events, aborts, environment and state -/

inductive Sev where
  | info | warn | error
  deriving DecidableEq, Repr

/-- Observable side effects of a dispatch, in order of occurrence. -/
inductive Event where
  | notify (msg : String) (sev : Sev)
  | clipWrite (text : String)
  | clipRead
  | fsMove (src dst : String)
  | fsCopy (src dst : String)
  | daemonPublish (path : String)
  | daemonUnpublish (path : String)
  | daemonSync
  | renameBackCall (origPath : String)
  | itemStart (path : String)
  deriving DecidableEq, Repr

/-- How a whole dispatch ends. -/
inductive Outcome where
  | normal
  | sysExit (code : Nat)
  | pyFatal (msg : String)
  | nonTerm
  deriving DecidableEq, Repr

/-- An abnormal exit of a piece of Python code: an Exception instance
(catchable by `except Exception`), a SystemExit raised by sys.exit (NOT
catchable by `except Exception`), or model-fuel exhaustion of an unbounded
source loop. -/
inductive PyErr where
  | exc (msg : String)
  | sysExit (code : Nat)
  | nonTerm
  deriving DecidableEq, Repr

/-- Result of one shutil copy/move call against the real filesystem:
success, an OSError with errno ENOTDIR (triggering the retry fallback in
the batch handlers), or any other OSError. -/
inductive OpRes where
  | ok | enotdir | err (msg : String)
  deriving DecidableEq, Repr

/-- External collaborators and configuration of one dispatch. -/
structure Env where
  yaDisk : String
  streamDir : String
  /-- stdout of `yandex-disk publish p`; none models CalledProcessError/timeout. -/
  publishResp : String → Option String
  /-- stdout of `yandex-disk unpublish p`; none models CalledProcessError. -/
  unpublishResp : String → Option String
  /-- stdout of `yandex-disk sync`; none models CalledProcessError. -/
  syncResp : Option String
  /-- result of shutil.move src dst. -/
  moveRes : String → String → OpRes
  /-- result of the immediate retry performed after an ENOTDIR failure. -/
  retryRes : String → String → OpRes
  /-- result of shutil.copytree src dst. -/
  copytreeRes : String → String → OpRes
  /-- result of shutil.copy2 src dst. -/
  copy2Res : String → String → OpRes
  /-- os.path.isdir. -/
  isDir : String → Bool
  /-- bound for the unbounded while-True search loops of the source. -/
  fuel : Nat
  /-- path produced by get_clipboard_content (external clipboard collaborator;
  none models an empty clipboard). -/
  clipSavedPath : Option String
  /-- stdout of the k-th `yandex-disk status` call; none models a failed call. -/
  statusResp : Nat → Option String

/-- Mutable state of one dispatch: the filesystem (list of existing paths),
the clipboard text, and the event trace.  The per-batch accumulators of the
executors (errors, processed count, collected links) are local variables of
the Python loops and are modelled as explicit loop accumulators. -/
structure St where
  fs : List String
  clip : Option String
  events : List Event
  deriving DecidableEq, Repr

def emit (st : St) (e : Event) : St := { st with events := st.events ++ [e] }

def stNotify (st : St) (msg : String) (sev : Sev) : St := emit st (.notify msg sev)

/-- shutil.move to an explicit destination path: the source path disappears,
the destination path appears. -/
def applyMove (st : St) (src dst : String) : St :=
  { st with fs := dst :: st.fs.erase src, events := st.events ++ [Event.fsMove src dst] }

/-- shutil.move with a directory as destination: the file lands inside it. -/
def applyMoveInto (st : St) (src dir : String) : St :=
  { st with fs := (dir ++ "/" ++ pyBasename src) :: st.fs.erase src,
            events := st.events ++ [Event.fsMove src dir] }

/-- shutil.copytree/copy2 to an explicit destination path. -/
def applyCopy (st : St) (src dst : String) : St :=
  { st with fs := dst :: st.fs, events := st.events ++ [Event.fsCopy src dst] }

/-- shutil.copy2 with a directory as destination: the copy lands inside it. -/
def applyCopyInto (st : St) (src dir : String) : St :=
  { st with fs := (dir ++ "/" ++ pyBasename src) :: st.fs,
            events := st.events ++ [Event.fsCopy src dir] }

/-- _copy_to_clipboard: set the clipboard and record the write. -/
def copy_to_clipboard (st : St) (text : String) : St :=
  { st with clip := some text, events := st.events ++ [Event.clipWrite text] }

/-- ClipboardHandler.get_text: read the clipboard. -/
def clipboard_get_text (st : St) : St × Option String :=
  (emit st .clipRead, st.clip)

/-! ## Daemon calls -/

/-- sync_yandex_disk: one sync invocation; a CalledProcessError is caught and
turned into an error string. -/
def sync_yandex_disk (env : Env) (st : St) : St × String :=
  let st := emit st .daemonSync
  match env.syncResp with
  | some out => (st, pyStrip out)
  | none => (st, "Sync error: CalledProcessError")

/-- unpublish_file: one unpublish invocation; a CalledProcessError is caught
and turned into an error string. -/
def unpublish_file (env : Env) (st : St) (p : String) : St × String :=
  let st := emit st (.daemonUnpublish p)
  match env.unpublishResp p with
  | some out => (st, pyStrip out)
  | none => (st, "Error: CalledProcessError")

/-- _validate_publish_result error indicators, checked on the lowercased
publish output. -/
def hasErrorIndicator (s : String) : Bool :=
  containsSub (strToLower s) "unknown publish error" || containsSub (strToLower s) "unknown error"
    || containsSub (strToLower s) "error:"

/-- _create_com_link: rewrite a short `.sk` link onto the .com domain,
keeping everything after the first occurrence of `.sk`. -/
def create_com_link (p : String) : String :=
  let parts := pySplit p ".sk"
  if parts.length ≥ 2 then
    "https://disk.yandex.com" ++ pyJoin ".sk" (parts.drop 1)
  else p

/-- publish_file: run `yandex-disk publish`, validate the output, copy the
chosen link to the clipboard and notify.  A CalledProcessError or an error
indicator in the output leads to show_error_and_exit (error notification
followed by sys.exit(1)). -/
def publish_file (env : Env) (st : St) (filePath : String) (useCom : Bool) :
    St × Except PyErr Unit :=
  let st := emit st (.daemonPublish filePath)
  match env.publishResp filePath with
  | none => (stNotify st "Publish error" .error, .error (.sysExit 1))
  | some out =>
    let publishPath := pyStrip out
    if hasErrorIndicator publishPath then
      (stNotify st publishPath .error, .error (.sysExit 1))
    else
      let comLink := create_com_link publishPath
      let st := copy_to_clipboard st (if useCom then comLink else publishPath)
      let st := stNotify st ("Published " ++ pyBasename filePath) .info
      (st, .ok ())

/-- The link publish_file leaves on the clipboard for a successful
.com-domain publish of path p. -/
def comLinkOf (env : Env) (p : String) : String :=
  create_com_link (pyStrip ((env.publishResp p).getD ""))

/-! ## Conflict resolver (_parse_file_info, _should_rename_file,
_generate_unique_file_name, _rename_file_if_needed,
_create_rename_back_function) -/

/-- _parse_file_info: path, base name, parent directory, and whether the
path lies outside the synced root (does not start with `ya_disk/`). -/
def parse_file_info (env : Env) (p : String) : String × String × String × Bool :=
  let fileName := if p = "" then "" else pyBasename p
  let fileDir := if p = "" then "" else pyDirname p
  let isOutsideFile := if p = "" then true else !(strStartsWith p (env.yaDisk ++ "/"))
  (p, fileName, fileDir, isOutsideFile)

/-- _should_rename_file: rename only when the input path exists AND a
same-named entry exists in the stream directory or the synced root AND the
command is rename-sensitive (outside publish, or a File* command). -/
def should_rename_file (env : Env) (fs : List String) (filePath fileName : String)
    (isOutsideFile : Bool) (commandType : String) : Bool :=
  if filePath = "" || !(fs.contains filePath) then false
  else
    let hasConflict := fs.contains (env.streamDir ++ "/" ++ fileName)
      || fs.contains (env.yaDisk ++ "/" ++ fileName)
    let needsRename := (isOutsideFile && strStartsWith commandType "PublishToYandex")
      || strStartsWith commandType "File"
    hasConflict && needsRename

/-- Search loop of _generate_unique_file_name: indices start at 1 and probe
the stream directory, the synced root and the source directory. -/
def genUniqueFileLoop (env : Env) (fs : List String) (namePart extPart fileDir : String) :
    Nat → Nat → Option (String × String)
  | 0, _ => none
  | fuel + 1, idx =>
    let i := idx + 1
    let nfn := namePart ++ "_" ++ toString i ++ extPart
    if fs.contains (env.streamDir ++ "/" ++ nfn) || fs.contains (env.yaDisk ++ "/" ++ nfn)
        || fs.contains (fileDir ++ "/" ++ nfn) then
      genUniqueFileLoop env fs namePart extPart fileDir fuel i
    else some (nfn, fileDir ++ "/" ++ nfn)

/-- _generate_unique_file_name: unique renamed name and full path in the
source directory (hidden files keep the whole name as stem). -/
def generate_unique_file_name (env : Env) (fs : List String)
    (filePath fileName fileDir : String) : Option (String × String) :=
  let namePart := if strStartsWith fileName "." then fileName else pyStem filePath
  let extPart := if strStartsWith fileName "." then "" else pySuffix filePath
  genUniqueFileLoop env fs namePart extPart fileDir env.fuel 0

/-- _rename_file_if_needed: when a rename is needed, physically move the
file to the generated unique path in its own directory; return the updated
path, name and a changed flag. -/
def rename_file_if_needed (env : Env) (st : St) (filePath fileName fileDir : String)
    (isOutsideFile : Bool) (commandType : String) :
    St × Except PyErr (String × String × Bool) :=
  if !(should_rename_file env st.fs filePath fileName isOutsideFile commandType) then
    (st, .ok (filePath, fileName, false))
  else
    match generate_unique_file_name env st.fs filePath fileName fileDir with
    | none => (st, .error .nonTerm)
    | some (newFileName, newSrcFilePath) =>
      match env.moveRes filePath newSrcFilePath with
      | .ok => (applyMove st filePath newSrcFilePath, .ok (newSrcFilePath, newFileName, true))
      | .enotdir => (st, .error (.exc "OSError: rename failed"))
      | .err m => (st, .error (.exc m))

/-- Invocation of the closure built by _create_rename_back_function: always
counts as a call; moves the file back only when the name was changed and a
file still exists at the renamed path (no-op otherwise). -/
def rename_back_run (env : Env) (st : St) (changed : Bool) (srcPath origPath : String) :
    St × Except PyErr Unit :=
  let st := emit st (.renameBackCall origPath)
  if changed && st.fs.contains srcPath then
    match env.moveRes srcPath origPath with
    | .ok => (applyMove st srcPath origPath, .ok ())
    | .enotdir => (st, .error (.exc "OSError: rename back failed"))
    | .err m => (st, .error (.exc m))
  else (st, .ok ())

/-- The parse-then-rename prelude shared by _handle_individual_commands and
_handle_batch_command. -/
def resolveConflictStep (env : Env) (st : St) (filePath commandType : String) :
    St × Except PyErr (String × String × Bool) :=
  let info := parse_file_info env filePath
  rename_file_if_needed env st info.1 info.2.1 info.2.2.1 info.2.2.2 commandType

/-! ## Readiness gate (_parse_yandex_status, _get_yandex_status,
wait_for_ready) -/

/-- _parse_yandex_status: first line containing `status:` case-insensitively;
the text after the last colon, trimmed; otherwise `not started`. -/
def parse_yandex_status (stdout : String) : String :=
  let statusLine :=
    (((pySplit stdout "\n").filter (fun l => containsSub (strToLower l) "status:")).headD "")
  let parts := pySplit statusLine ":"
  if parts.length ≥ 2 then pyStrip (parts.getLastD "") else "not started"

/-- _get_yandex_status: a failed status call degrades to `not started`. -/
def get_yandex_status (resp : Option String) : String :=
  match resp with
  | some out => parse_yandex_status out
  | none => "not started"

/-- Poll loop of wait_for_ready: up to `fuel` further status queries starting
at query index k; returns the index of the first idle poll. -/
def waitLoop (statuses : Nat → Option String) : Nat → Nat → Option Nat
  | 0, _ => none
  | fuel + 1, k =>
    if get_yandex_status (statuses k) = "idle" then some k
    else waitLoop statuses fuel (k + 1)

/-- wait_for_ready: events emitted, outcome, and the index of the status
query that reported idle (none when the wait timed out fatally). -/
def wait_for_ready (statuses : Nat → Option String) : List Event × Outcome × Option Nat :=
  if get_yandex_status (statuses 0) = "idle" then ([], .normal, some 0)
  else
    let warnEv := Event.notify ("Service status: " ++ get_yandex_status (statuses 0)) .warn
    match waitLoop statuses WAIT_TIMEOUT 1 with
    | some k => ([warnEv], .normal, some k)
    | none => ([warnEv, Event.notify "Service is not available" .error], .sysExit 1, none)

/-! ## Attribute tables for the attribute-lookup slips in the source

Python getattr on an instance searches the instance dict, then the class.
These lists are transcribed from the source: YandexDiskMenu.__init__ binds
the instance attributes, the class body defines only methods;
CommandProcessor.__init__ binds yd_menu and logger, the class body defines
only methods. -/

def yandexDiskMenuInstanceAttrs : List String :=
  ["ya_disk_root", "ya_disk", "stream_dir", "log_file_path", "verbose",
   "start_time", "logger", "clipboard"]

def yandexDiskMenuMethods : List String :=
  ["__init__", "__del__", "log_message", "format_file_path", "format_link",
   "show_notification", "show_error_and_exit", "_run_command",
   "_parse_yandex_status", "_get_yandex_status", "wait_for_ready",
   "_get_clipboard_image_type", "_save_clipboard_image", "_get_clipboard_text",
   "_create_filename_from_text", "get_clipboard_content", "_copy_to_clipboard",
   "_create_com_link", "_validate_publish_result", "publish_file",
   "unpublish_file", "unpublish_copies", "sync_yandex_disk",
   "generate_unique_filename", "_parse_file_info", "_should_rename_file",
   "_generate_unique_file_name", "_rename_file_if_needed",
   "_create_rename_back_function"]

def yandexDiskMenuHasAttr (a : String) : Bool :=
  yandexDiskMenuInstanceAttrs.contains a || yandexDiskMenuMethods.contains a

def commandProcessorInstanceAttrs : List String := ["yd_menu", "logger"]

def commandProcessorMethods : List String :=
  ["__init__", "process_command", "_execute_command",
   "_handle_individual_commands", "_handle_batch_command",
   "_handle_unknown_command"]

def commandProcessorHasAttr (a : String) : Bool :=
  commandProcessorInstanceAttrs.contains a || commandProcessorMethods.contains a

/-! ## Single-item command handlers -/

/-- _handle_publish_command_collect_link: save the clipboard, publish (which
itself writes the link to the clipboard), read the link back, restore the
saved clipboard when truthy, move an outside file from the synced root into
the stream directory, and return the link. -/
def handle_publish_command_collect_link (env : Env) (st : St)
    (commandType srcFilePath : String) (isOutsideFile : Bool) (yaDiskFilePath : String) :
    St × Except PyErr (Option String) :=
  let useCom := commandType = "PublishToYandexCom"
  let read1 := clipboard_get_text st
  let originalClipboard := read1.2
  match publish_file env read1.1 srcFilePath useCom with
  | (st, .error e) => (st, .error e)
  | (st, .ok _) =>
    let read2 := clipboard_get_text st
    let publishedLink := read2.2
    let st := if optTruthy originalClipboard
      then copy_to_clipboard read2.1 (originalClipboard.getD "") else read2.1
    if isOutsideFile then
      match env.moveRes yaDiskFilePath env.streamDir with
      | .ok => (applyMoveInto st yaDiskFilePath env.streamDir, .ok publishedLink)
      | .enotdir => (st, .error (.exc "OSError: move to stream failed"))
      | .err m => (st, .error (.exc m))
    else (st, .ok publishedLink)

/-- _handle_publish_command: publish, notify, and move an outside file from
the synced root into the stream directory. -/
def handle_publish_command (env : Env) (st : St) (commandType srcFilePath : String)
    (isOutsideFile : Bool) (yaDiskFilePath : String) : St × Except PyErr Unit :=
  let useCom := commandType = "PublishToYandexCom"
  match publish_file env st srcFilePath useCom with
  | (st, .error e) => (st, .error e)
  | (st, .ok _) =>
    let st := if env.isDir srcFilePath
      then stNotify st ("Published directory " ++ srcFilePath) .info
      else stNotify st ("Published file " ++ srcFilePath) .info
    if isOutsideFile then
      match env.moveRes yaDiskFilePath env.streamDir with
      | .ok => (applyMoveInto st yaDiskFilePath env.streamDir, .ok ())
      | .enotdir => (st, .error (.exc "OSError: move to stream failed"))
      | .err m => (st, .error (.exc m))
    else (st, .ok ())

/-- _handle_unpublish_command: unpublish one file; an error in the result
text leads to show_error_and_exit. -/
def handle_unpublish_command (env : Env) (st : St) (srcFilePath fileName : String)
    (isOutsideFile : Bool) : St × Except PyErr Unit :=
  let targetFile := if isOutsideFile then env.streamDir ++ "/" ++ fileName else srcFilePath
  let call := unpublish_file env st targetFile
  let result := call.2
  if containsSub (strToLower result) "unknown error" || containsSub (strToLower result) "error:" then
    (stNotify call.1 (result ++ " for " ++ fileName) .error, .error (.sysExit 1))
  else
    (stNotify call.1 (result ++ " for " ++ fileName) .info, .ok ())

/-- Loop of unpublish_copies: unpublish base name then numbered copies until
a numbered path does not exist. -/
def unpublishCopiesLoop (env : Env) (baseDir baseFile fileName namePart extPart : String) :
    Nat → Nat → St → St × Except PyErr (List String)
  | 0, _, st => (st, .error .nonTerm)
  | fuel + 1, index, st =>
    let currentName := if index = 0 then fileName
      else namePart ++ "_" ++ toString index ++ extPart
    let currentFile := if index = 0 then baseFile
      else baseDir ++ "/" ++ (namePart ++ "_" ++ toString index ++ extPart)
    if !(st.fs.contains currentFile) then (st, .ok [])
    else
      let call := unpublish_file env st currentFile
      match unpublishCopiesLoop env baseDir baseFile fileName namePart extPart fuel
          (index + 1) call.1 with
      | (st, .ok rest) => (st, .ok ((currentName ++ " - " ++ call.2) :: rest))
      | (st, .error e) => (st, .error e)

/-- unpublish_copies: joined per-copy results. -/
def unpublish_copies (env : Env) (st : St) (baseDir baseFile fileName : String) :
    St × Except PyErr String :=
  let namePart := if strStartsWith fileName "." then fileName else pyStem baseFile
  let extPart := if strStartsWith fileName "." then "" else pySuffix baseFile
  match unpublishCopiesLoop env baseDir baseFile fileName namePart extPart env.fuel 0 st with
  | (st, .ok results) => (st, .ok (pyJoin ";\n" results))
  | (st, .error e) => (st, .error e)

/-- _handle_unpublish_all_command: outside files are looked up in the stream
directory; the summary notification severity follows the result text. -/
def handle_unpublish_all_command (env : Env) (st : St)
    (srcFilePath fileName fileDir : String) (isOutsideFile : Bool) :
    St × Except PyErr Unit :=
  let call :=
    if isOutsideFile then
      unpublish_copies env st env.streamDir (env.streamDir ++ "/" ++ fileName) fileName
    else unpublish_copies env st fileDir srcFilePath fileName
  match call with
  | (st, .ok result) =>
    let sev := if containsSub (strToLower result) "error" then Sev.error else Sev.info
    (stNotify st ("Files unpublished:\n" ++ result) sev, .ok ())
  | (st, .error e) => (st, .error e)

/-- _handle_clipboard_to_stream_command: get_clipboard_content is an external
collaborator (env.clipSavedPath); an empty clipboard exits with code 1. -/
def handle_clipboard_to_stream_command (env : Env) (st : St) : St × Except PyErr Unit :=
  match env.clipSavedPath with
  | none => (st, .error (.sysExit 1))
  | some clipDestPath =>
    let st := { st with fs := clipDestPath :: st.fs }
    let syncCall := sync_yandex_disk env st
    (stNotify syncCall.1 ("Clipboard flushed to stream:\n" ++ clipDestPath ++ "\n"
      ++ syncCall.2) .info, .ok ())

/-- _handle_clipboard_publish_command: flush the clipboard to the stream,
sync, notify, wait for readiness again and publish the saved file. -/
def handle_clipboard_publish_command (env : Env) (st : St) (commandType : String) :
    St × Except PyErr Unit :=
  match env.clipSavedPath with
  | none => (st, .error (.sysExit 1))
  | some clipDestPath =>
    let st := { st with fs := clipDestPath :: st.fs }
    let syncCall := sync_yandex_disk env st
    let st := stNotify syncCall.1 ("Clipboard flushed to stream:\n" ++ clipDestPath ++ "\n"
      ++ syncCall.2) .info
    let useCom := commandType = "ClipboardPublishToCom"
    let gate := wait_for_ready env.statusResp
    let st := { st with events := st.events ++ gate.1 }
    match gate.2.1 with
    | .sysExit c => (st, .error (.sysExit c))
    | _ => publish_file env st clipDestPath useCom

/-- _handle_file_add_to_stream_command: copy one file or directory into the
stream directory with the ENOTDIR fallback, then sync and notify. -/
def handle_file_add_to_stream_command (env : Env) (st : St) (srcFilePath : String) :
    St × Except PyErr Unit :=
  let copied : St × Except PyErr Unit :=
    if env.isDir srcFilePath then
      let baseName := pyBasename (rstripSlashes srcFilePath)
      let destDir := env.streamDir ++ "/" ++ baseName
      match env.copytreeRes srcFilePath destDir with
      | .ok => (applyCopy st srcFilePath destDir, .ok ())
      | .enotdir =>
        match env.retryRes srcFilePath destDir with
        | .ok => (applyCopy st srcFilePath destDir, .ok ())
        | .enotdir => (st, .error (.exc "OSError: copy failed"))
        | .err m => (st, .error (.exc m))
      | .err m => (st, .error (.exc m))
    else
      match env.copy2Res srcFilePath env.streamDir with
      | .ok => (applyCopyInto st srcFilePath env.streamDir, .ok ())
      | .enotdir => (st, .error (.exc "OSError: copy failed"))
      | .err m => (st, .error (.exc m))
  match copied with
  | (st, .ok _) =>
    let syncCall := sync_yandex_disk env st
    (stNotify syncCall.1 ("Copied to stream\n" ++ syncCall.2) .info, .ok ())
  | (st, .error e) => (st, .error e)

/-- _handle_file_move_to_stream_command: move one file or directory into the
stream directory (the ENOTDIR fallback retries the same move), then sync
and notify. -/
def handle_file_move_to_stream_command (env : Env) (st : St) (srcFilePath : String) :
    St × Except PyErr Unit :=
  let moved : St × Except PyErr Unit :=
    if env.isDir srcFilePath then
      let baseName := pyBasename (rstripSlashes srcFilePath)
      let destDir := env.streamDir ++ "/" ++ baseName
      match env.moveRes srcFilePath destDir with
      | .ok => (applyMove st srcFilePath destDir, .ok ())
      | .enotdir =>
        match env.retryRes srcFilePath destDir with
        | .ok => (applyMove st srcFilePath destDir, .ok ())
        | .enotdir => (st, .error (.exc "OSError: move failed"))
        | .err m => (st, .error (.exc m))
      | .err m => (st, .error (.exc m))
    else
      match env.moveRes srcFilePath env.streamDir with
      | .ok => (applyMoveInto st srcFilePath env.streamDir, .ok ())
      | .enotdir => (st, .error (.exc "OSError: move failed"))
      | .err m => (st, .error (.exc m))
  match moved with
  | (st, .ok _) =>
    let syncCall := sync_yandex_disk env st
    (stNotify syncCall.1 ("Moved to stream\n" ++ syncCall.2) .info, .ok ())
  | (st, .error e) => (st, .error e)

/-- _handle_unknown_command: the source evaluates
self.yd_menu.KDE_SERVICE_MENU_PATH to build the notification text, but
KDE_SERVICE_MENU_PATH is an attribute of the Constants class, not of
YandexDiskMenu, so the lookup raises AttributeError before any
notification is shown. -/
def handle_unknown_command (st : St) (commandType : String) : St × Except PyErr Unit :=
  if yandexDiskMenuHasAttr "KDE_SERVICE_MENU_PATH" then
    (stNotify st ("Unknown action " ++ commandType) .error, .ok ())
  else
    (st, .error (.exc "AttributeError: YandexDiskMenu object has no attribute KDE_SERVICE_MENU_PATH"))

/-- _execute_command: the handler switch. -/
def execute_command (env : Env) (st : St) (commandType srcFilePath fileName fileDir : String)
    (isOutsideFile : Bool) (yaDiskFilePath : String) : St × Except PyErr Unit :=
  if commandType = "PublishToYandexCom" ∨ commandType = "PublishToYandex" then
    handle_publish_command env st commandType srcFilePath isOutsideFile yaDiskFilePath
  else if commandType = "ClipboardPublishToCom" ∨ commandType = "ClipboardPublish" then
    handle_clipboard_publish_command env st commandType
  else if commandType = "UnpublishFromYandex" then
    handle_unpublish_command env st srcFilePath fileName isOutsideFile
  else if commandType = "UnpublishAllCopy" then
    handle_unpublish_all_command env st srcFilePath fileName fileDir isOutsideFile
  else if commandType = "ClipboardToStream" then
    handle_clipboard_to_stream_command env st
  else if commandType = "FileAddToStream" then
    handle_file_add_to_stream_command env st srcFilePath
  else if commandType = "FileMoveToStream" then
    handle_file_move_to_stream_command env st srcFilePath
  else handle_unknown_command st commandType

/-! ## One-by-one executor (_handle_individual_commands) -/

/-- Result of one iteration of the per-item loop: the updated state, the
failure entry recorded by the `except Exception` handler (keyed by the
original pre-rename path), whether processed_count was incremented, the
link appended to collected_links, and the abort that ends the whole loop
(SystemExit, or model-fuel exhaustion). -/
structure StepRes where
  st : St
  err : Option (String × String)
  done : Bool
  link : Option String
  abort : Option Outcome
  deriving DecidableEq, Repr

/-- The per-item action of _handle_individual_commands: publish commands go
through the link-collecting variant, everything else through the
_execute_command switch (which yields no link). -/
def stepBody (env : Env) (commandType : String) (st : St)
    (srcFilePath fileName fileDir : String) (isOutsideFile : Bool)
    (yaDiskFilePath : String) : St × Except PyErr (Option String) :=
  if commandType = "PublishToYandexCom" ∨ commandType = "PublishToYandex" then
    handle_publish_command_collect_link env st commandType srcFilePath
      isOutsideFile yaDiskFilePath
  else
    match execute_command env st commandType srcFilePath fileName fileDir isOutsideFile
        yaDiskFilePath with
    | (st, .ok _) => (st, .ok none)
    | (st, .error e) => (st, .error e)

/-- One iteration of the per-item loop of _handle_individual_commands.  The
loop body runs inside `try: ... except Exception`, so an ordinary Exception
is recorded under the original path and the loop continues, while a
SystemExit (from show_error_and_exit inside publish_file or the unpublish
handler) aborts the whole loop.  For publish commands the produced link is
appended to collected_links right after the collect call; the rename-back
closure is invoked after the per-item action, still inside the try block,
so a link already collected survives a rename-back failure. -/
def stepItem (env : Env) (commandType : String) (st : St) (filePath : String) : StepRes :=
  let st := emit st (.itemStart filePath)
  let originalSrcFilePath := filePath
  match resolveConflictStep env st filePath commandType with
  | (st, .error (.exc m)) => ⟨st, some (filePath, m), false, none, none⟩
  | (st, .error (.sysExit c)) => ⟨st, none, false, none, some (.sysExit c)⟩
  | (st, .error .nonTerm) => ⟨st, none, false, none, some .nonTerm⟩
  | (st, .ok info) =>
    let srcFilePath := info.1
    let fileName := info.2.1
    let changed := info.2.2
    let fileDir := (parse_file_info env filePath).2.2.1
    let isOutsideFile := (parse_file_info env filePath).2.2.2
    let yaDiskFilePath := env.yaDisk ++ "/" ++ fileName
    match stepBody env commandType st srcFilePath fileName fileDir isOutsideFile
        yaDiskFilePath with
    | (st, .error (.exc m)) => ⟨st, some (filePath, m), false, none, none⟩
    | (st, .error (.sysExit c)) => ⟨st, none, false, none, some (.sysExit c)⟩
    | (st, .error .nonTerm) => ⟨st, none, false, none, some .nonTerm⟩
    | (st, .ok link) =>
      let kept := if optTruthy link then link else none
      match rename_back_run env st changed srcFilePath originalSrcFilePath with
      | (st, .ok _) => ⟨st, none, true, kept, none⟩
      | (st, .error (.exc m)) => ⟨st, some (filePath, m), false, kept, none⟩
      | (st, .error (.sysExit c)) => ⟨st, none, false, kept, some (.sysExit c)⟩
      | (st, .error .nonTerm) => ⟨st, none, false, kept, some .nonTerm⟩

/-- The per-item loop over all input paths, with the three local
accumulators of the source (errors, processed_count, collected_links). -/
def runItems (env : Env) (commandType : String) :
    List String → St → List (String × String) → Nat → List String →
    St × List (String × String) × Nat × List String × Option Outcome
  | [], st, errs, cnt, links => (st, errs, cnt, links, none)
  | p :: rest, st, errs, cnt, links =>
    let r := stepItem env commandType st p
    let errs2 := match r.err with | some e => errs ++ [e] | none => errs
    let cnt2 := if r.done then cnt + 1 else cnt
    let links2 := match r.link with | some l => links ++ [l] | none => links
    match r.abort with
    | some o => (r.st, errs2, cnt2, links2, some o)
    | none => runItems env commandType rest r.st errs2 cnt2 links2

/-- Summary step after the per-item loop: flush collected links to the
clipboard in one write, then report.  In the branch for two or more
successes without collected links the source evaluates
self.Constants.TIMEOUT_SHORT, but CommandProcessor has no attribute
Constants, so that branch raises AttributeError before notifying. -/
def individualSummary (commandType : String) (pathsCount : Nat) (st : St)
    (errs : List (String × String)) (cnt : Nat) (links : List String) : St × Outcome :=
  let st :=
    if links ≠ [] then
      let allLinks := pyJoin "\n" links
      let st := copy_to_clipboard st allLinks
      stNotify st ("Published " ++ toString links.length ++ " items. All links copied")
        .info
    else st
  if errs ≠ [] ∧ cnt > 0 then
    let st := stNotify st ("Processed " ++ toString cnt ++ " of "
      ++ toString pathsCount ++ " items. " ++ toString errs.length ++ " failed.") .warn
    (stNotify st "Errors occurred" .error, .normal)
  else if errs ≠ [] then
    (stNotify st "All items failed" .error, .normal)
  else if cnt > 1 ∧ links = [] then
    if commandProcessorHasAttr "Constants" then
      (stNotify st ("Processed " ++ toString cnt ++ " items with " ++ commandType)
        .info, .normal)
    else
      (st, .pyFatal "AttributeError: CommandProcessor object has no attribute Constants")
  else (st, .normal)

/-- _handle_individual_commands: the loop followed by the summary step. -/
def handle_individual_commands (env : Env) (commandType : String) (paths : List String)
    (st : St) : St × Outcome :=
  match runItems env commandType paths st [] 0 [] with
  | (st, _, _, _, some o) => (st, o)
  | (st, errs, cnt, links, none) => individualSummary commandType paths.length st errs cnt links

/-! ## Batch executor (_handle_batch_command, _handle_batch_add_to_stream,
_handle_batch_move_to_stream) -/

/-- Data of one preprocessed batch item: resolved source path, file name,
and the rename-back closure (none models `lambda: None` used for moves). -/
abbrev BatchItem : Type := String × String × Option (Bool × String × String)

/-- Preprocessing loop of _handle_batch_command: parse and rename each path,
collecting per-path errors locally; for copy operations the real
rename-back closure is kept, for moves a no-op lambda. -/
def batchPrep (env : Env) (commandType : String) (isCopy : Bool) :
    List String → St → List BatchItem → List (String × String) →
    St × List BatchItem × List (String × String) × Option Outcome
  | [], st, acc, errs => (st, acc, errs, none)
  | p :: rest, st, acc, errs =>
    match resolveConflictStep env st p commandType with
    | (st, .ok info) =>
      let rb : Option (Bool × String × String) :=
        if isCopy then some (info.2.2, info.1, p) else none
      batchPrep env commandType isCopy rest st (acc ++ [(info.1, info.2.1, rb)]) errs
    | (st, .error (.exc m)) =>
      batchPrep env commandType isCopy rest st acc (errs ++ [(p, m)])
    | (st, .error (.sysExit c)) => (st, acc, errs, some (.sysExit c))
    | (st, .error .nonTerm) => (st, acc, errs, some .nonTerm)

/-- Invocation of a batch rename-back closure. -/
def invokeRB (env : Env) (st : St) : Option (Bool × String × String) → St × Except PyErr Unit
  | none => (st, .ok ())
  | some (changed, src, orig) => rename_back_run env st changed src orig

/-- Item loop of _handle_batch_add_to_stream: copy each item (directories
via copytree with the ENOTDIR copy2 fallback), record the success before
invoking rename-back, and catch any Exception per item. -/
def batchAddLoop (env : Env) : List BatchItem → St → List String → List (String × String) →
    St × List String × List (String × String)
  | [], st, copied, errs => (st, copied, errs)
  | (src, _, rb) :: rest, st, copied, errs =>
    let st := emit st (.itemStart src)
    let attempt : St × Except PyErr String :=
      if env.isDir src then
        let destDir := env.streamDir ++ "/" ++ pyBasename (rstripSlashes src)
        match env.copytreeRes src destDir with
        | .ok => (applyCopy st src destDir, .ok ("Directory: " ++ src))
        | .enotdir =>
          match env.retryRes src destDir with
          | .ok => (applyCopy st src destDir, .ok ("File: " ++ src))
          | .enotdir => (st, .error (.exc "OSError: copy failed"))
          | .err m => (st, .error (.exc m))
        | .err m => (st, .error (.exc m))
      else
        match env.copy2Res src env.streamDir with
        | .ok => (applyCopyInto st src env.streamDir, .ok ("File: " ++ src))
        | .enotdir => (st, .error (.exc "OSError: copy failed"))
        | .err m => (st, .error (.exc m))
    match attempt with
    | (st, .ok tag) =>
      match invokeRB env st rb with
      | (st, .ok _) => batchAddLoop env rest st (copied ++ [tag]) errs
      | (st, .error (.exc m)) => batchAddLoop env rest st (copied ++ [tag]) (errs ++ [(src, m)])
      | (st, .error _) => batchAddLoop env rest st (copied ++ [tag]) errs
    | (st, .error (.exc m)) => batchAddLoop env rest st copied (errs ++ [(src, m)])
    | (st, .error _) => batchAddLoop env rest st copied errs

/-- Item loop of _handle_batch_move_to_stream: move each item (the ENOTDIR
fallback retries the same move); no rename-back for moves. -/
def batchMoveLoop (env : Env) : List BatchItem → St → List String → List (String × String) →
    St × List String × List (String × String)
  | [], st, moved, errs => (st, moved, errs)
  | (src, _, _) :: rest, st, moved, errs =>
    let st := emit st (.itemStart src)
    let attempt : St × Except PyErr String :=
      if env.isDir src then
        let destDir := env.streamDir ++ "/" ++ pyBasename (rstripSlashes src)
        match env.moveRes src destDir with
        | .ok => (applyMove st src destDir, .ok ("Directory: " ++ src))
        | .enotdir =>
          match env.retryRes src destDir with
          | .ok => (applyMove st src destDir, .ok ("File: " ++ src))
          | .enotdir => (st, .error (.exc "OSError: move failed"))
          | .err m => (st, .error (.exc m))
        | .err m => (st, .error (.exc m))
      else
        match env.moveRes src env.streamDir with
        | .ok => (applyMoveInto st src env.streamDir, .ok ("Directory: " ++ src))
        | .enotdir => (st, .error (.exc "OSError: move failed"))
        | .err m => (st, .error (.exc m))
    match attempt with
    | (st, .ok tag) => batchMoveLoop env rest st (moved ++ [tag]) errs
    | (st, .error (.exc m)) => batchMoveLoop env rest st moved (errs ++ [(src, m)])
    | (st, .error _) => batchMoveLoop env rest st moved errs

/-- Bounded display list used by the batch success notifications: the first
five items, then a count of the remaining ones. -/
def displayItems (items : List String) : String :=
  if items.length > 5 then
    pyJoin "\n" (items.take 5) ++ "\n... and "
      ++ toString (items.length - 5) ++ " more items"
  else pyJoin "\n" items

/-- _handle_batch_add_to_stream: item loop, then exactly one sync, then the
outcome classification (partial failure falls through to the success
notification; total failure returns after the sync). -/
def handle_batch_add_to_stream (env : Env) (st : St) (items : List BatchItem) :
    St × Outcome :=
  let run := batchAddLoop env items st [] []
  let st := run.1
  let copied := run.2.1
  let errs := run.2.2
  let syncCall := sync_yandex_disk env st
  let st := syncCall.1
  let syncStatus := syncCall.2
  if errs ≠ [] ∧ copied ≠ [] then
    let st := stNotify st ("Copied " ++ toString copied.length ++ " items, "
      ++ toString errs.length ++ " failed") .warn
    (stNotify st ("Copied " ++ toString copied.length ++ " items to stream:\n"
      ++ displayItems copied ++ "\n" ++ syncStatus) .info, .normal)
  else if errs ≠ [] then
    (stNotify st "Copy failed for all items" .error, .normal)
  else
    (stNotify st ("Copied " ++ toString copied.length ++ " items to stream:\n"
      ++ displayItems copied ++ "\n" ++ syncStatus) .info, .normal)

/-- _handle_batch_move_to_stream: item loop, then exactly one sync, then the
outcome classification. -/
def handle_batch_move_to_stream (env : Env) (st : St) (items : List BatchItem) :
    St × Outcome :=
  let run := batchMoveLoop env items st [] []
  let st := run.1
  let moved := run.2.1
  let errs := run.2.2
  let syncCall := sync_yandex_disk env st
  let st := syncCall.1
  let syncStatus := syncCall.2
  if errs ≠ [] ∧ moved ≠ [] then
    let st := stNotify st ("Moved " ++ toString moved.length ++ " items, "
      ++ toString errs.length ++ " failed") .warn
    (stNotify st ("Moved " ++ toString moved.length ++ " items to stream:\n"
      ++ displayItems moved ++ "\n" ++ syncStatus) .info, .normal)
  else if errs ≠ [] then
    (stNotify st "Move failed for all items" .error, .normal)
  else
    (stNotify st ("Moved " ++ toString moved.length ++ " items to stream:\n"
      ++ displayItems moved ++ "\n" ++ syncStatus) .info, .normal)

/-- _handle_batch_command.  For an empty selection the source evaluates
self.yd_menu.TIMEOUT_SHORT (an attribute of Constants, not of
YandexDiskMenu), raising AttributeError. -/
def handle_batch_command (env : Env) (st : St) (commandType : String)
    (paths : List String) : St × Outcome :=
  if paths = [] then
    if yandexDiskMenuHasAttr "TIMEOUT_SHORT" then
      (stNotify st "No files selected for batch operation" .warn, .normal)
    else
      (st, .pyFatal "AttributeError: YandexDiskMenu object has no attribute TIMEOUT_SHORT")
  else
    let isCopy := commandType = "FileAddToStream"
    match batchPrep env commandType isCopy paths st [] [] with
    | (st, _, _, some o) => (st, o)
    | (st, items, prepErrs, none) =>
      let st := if prepErrs ≠ [] then stNotify st "Batch processing errors" .error else st
      if isCopy then handle_batch_add_to_stream env st items
      else if commandType = "FileMoveToStream" then handle_batch_move_to_stream env st items
      else
        if yandexDiskMenuHasAttr "TIMEOUT_SHORT" then
          (stNotify st ("Unknown batch command: " ++ commandType) .error, .normal)
        else
          (st, .pyFatal "AttributeError: YandexDiskMenu object has no attribute TIMEOUT_SHORT")

/-! ## CommandProcessor.process_command -/

def liftExec (r : St × Except PyErr Unit) : St × Outcome :=
  match r with
  | (st, .ok _) => (st, .normal)
  | (st, .error (.exc m)) => (st, .pyFatal m)
  | (st, .error (.sysExit c)) => (st, .sysExit c)
  | (st, .error .nonTerm) => (st, .nonTerm)

/-- process_command: clipboard commands first (no file processing), then
batch commands, then one-by-one commands, else the unknown-command handler.
An exception escaping a handler is unhandled at process level and
terminates the dispatch. -/
def process_command (env : Env) (st : St) (commandType : String) (paths : List String) :
    St × Outcome :=
  if CLIPBOARD_COMMANDS.contains commandType then
    liftExec (execute_command env st commandType "" "" "" false "")
  else if ALL_AT_ONCE_COMMANDS.contains commandType then
    handle_batch_command env st commandType paths
  else if ONE_BY_ONE_COMMANDS.contains commandType then
    handle_individual_commands env commandType paths st
  else
    liftExec (handle_unknown_command st commandType)

/-! ## Event counting helpers -/

def isClipWriteEv : Event → Bool
  | .clipWrite _ => true
  | _ => false

def isSyncEv : Event → Bool
  | .daemonSync => true
  | _ => false

def isRenameBackEv : Event → Bool
  | .renameBackCall _ => true
  | _ => false

def isNotifyEv : Event → Bool
  | .notify _ _ => true
  | _ => false

def isWarnNotifyEv : Event → Bool
  | .notify _ .warn => true
  | _ => false

def isErrNotifyEv : Event → Bool
  | .notify _ .error => true
  | _ => false

def clipWriteCount (evs : List Event) : Nat := evs.countP isClipWriteEv

def syncCount (evs : List Event) : Nat := evs.countP isSyncEv

def renameBackCount (evs : List Event) : Nat := evs.countP isRenameBackEv

def notifyCount (evs : List Event) : Nat := evs.countP isNotifyEv

def warnNotifyCount (evs : List Event) : Nat := evs.countP isWarnNotifyEv

def errNotifyCount (evs : List Event) : Nat := evs.countP isErrNotifyEv

/-! ## Concrete environments and states for witnesses and counterexamples -/

/-- A benign environment: every external call succeeds. -/
def demoEnv : Env where
  yaDisk := "/r/yaMedia"
  streamDir := "/r/yaMedia/Media"
  publishResp := fun _ => some "https://yadi.sk/d/x"
  unpublishResp := fun _ => some "unpublished ok"
  syncResp := some "sync done"
  moveRes := fun _ _ => .ok
  retryRes := fun _ _ => .ok
  copytreeRes := fun _ _ => .ok
  copy2Res := fun _ _ => .ok
  isDir := fun _ => false
  fuel := 6
  clipSavedPath := none
  statusResp := fun _ => some "Sync core status: idle"

/-- A fresh dispatch state over a given filesystem and clipboard. -/
def initSt (fs : List String) (clip : Option String) : St where
  fs := fs
  clip := clip
  events := []

/-! ## C5 — generate_unique_filename returns the first collision-free
candidate -/

/-- C5: whenever generate_unique_filename returns a name, that name is the
candidate at the smallest suffix index that collides with no existing path
in the synced root, the stream directory or the target directory; in
particular the returned name is absent from all three probed directories.
The generator is a pure function of the filesystem list: it is
deterministic and performs no filesystem mutation by construction. -/
theorem c5_unique_name_first_free (fuel : Nat) (fs : List String)
    (ya stDir tgt fn name : String)
    (h : generate_unique_filename fuel fs ya stDir tgt fn = some name) :
    ∃ i, name = uniqueCandidate fn i ∧
      fs.contains (ya ++ "/" ++ name) = false ∧
      fs.contains (stDir ++ "/" ++ name) = false ∧
      fs.contains (tgt ++ "/" ++ name) = false ∧
      ∀ j, j < i → uniqueCollides fs ya stDir tgt fn j = true := by
  obtain ⟨i, _, hname, hfree, hmin⟩ :=
    generateUniqueLoop_spec fs ya stDir tgt fn fuel 0 name h
  rw [uniqueCollides] at hfree
  simp only [Bool.or_eq_false_iff] at hfree
  refine ⟨i, hname, ?_, ?_, ?_, fun j hj => hmin j (Nat.zero_le _) hj⟩
  · rw [hname]; exact hfree.1.1
  · rw [hname]; exact hfree.1.2
  · rw [hname]; exact hfree.2

/-- Witness for C5 at a concrete input: `a.txt` collides in the synced root
and `a_1.txt` collides in the target directory, so the generator returns
`a_2.txt`, which is absent from every probed directory. -/
theorem c5_unique_name_first_free_witness :
    ∃ i, "a_2.txt" = uniqueCandidate "a.txt" i ∧
      (["/r/yaMedia/a.txt", "/t/a_1.txt"].contains ("/r/yaMedia" ++ "/" ++ "a_2.txt")) = false ∧
      (["/r/yaMedia/a.txt", "/t/a_1.txt"].contains ("/r/yaMedia/Media" ++ "/" ++ "a_2.txt")) = false ∧
      (["/r/yaMedia/a.txt", "/t/a_1.txt"].contains ("/t" ++ "/" ++ "a_2.txt")) = false ∧
      ∀ j, j < i →
        uniqueCollides ["/r/yaMedia/a.txt", "/t/a_1.txt"] "/r/yaMedia" "/r/yaMedia/Media"
          "/t" "a.txt" j = true :=
  c5_unique_name_first_free 6 ["/r/yaMedia/a.txt", "/t/a_1.txt"] "/r/yaMedia"
    "/r/yaMedia/Media" "/t" "a.txt" "a_2.txt" (by decide)

/-! ## C6 — hidden-file rule of the unique-name generator -/

/-- C6 counterexample: the claim states that a candidate containing a dot
besides a leading one is split at the last dot, so `.env.local` would
produce `.env_1.local`; the code treats every name starting with a dot as
a whole stem and produces `.env.local_1` instead. -/
theorem c6_hidden_dot_counterexample :
    generate_unique_filename 6 ["/t/.env.local"] "/y" "/s" "/t" ".env.local"
      = some ".env.local_1" ∧ (".env.local_1" : String) ≠ ".env_1.local" := by
  constructor
  · decide
  · decide

/-- C6 amended: every candidate starting with a dot (with or without
further dots) is treated as a stem with empty extension, so suffixes are
appended after the whole name; candidates not starting with a dot are
split at the last dot when that dot is internal.  Checked on the spec
scenarios for `.env`, on `.env.local`, and on a last-dot split example. -/
theorem c6_hidden_file_rule :
    (∀ s : String, strStartsWith s "." = true → ∀ i : Nat, 1 ≤ i →
      uniqueCandidate s i = s ++ "_" ++ toString i) ∧
    generate_unique_filename 6 [] "/y" "/s" "/t" ".env" = some ".env" ∧
    generate_unique_filename 6 ["/t/.env"] "/y" "/s" "/t" ".env" = some ".env_1" ∧
    generate_unique_filename 6 ["/t/.env", "/t/.env_1"] "/y" "/s" "/t" ".env"
      = some ".env_2" ∧
    generate_unique_filename 6 ["/t/.env.local"] "/y" "/s" "/t" ".env.local"
      = some ".env.local_1" ∧
    generate_unique_filename 6 ["/t/a.b"] "/y" "/s" "/t" "a.b" = some "a_1.b" := by
  refine ⟨?_, by decide, by decide, by decide, by decide, by decide⟩
  intro s hs i hi
  have hne : i ≠ 0 := by omega
  simp [uniqueCandidate, hs, hne]

/-- Witness for C6 at a concrete input: the first suffixed candidate for
`.env.local` appends after the whole name. -/
theorem c6_hidden_file_rule_witness :
    uniqueCandidate ".env.local" 1 = ".env.local" ++ "_" ++ toString 1 :=
  c6_hidden_file_rule.1 ".env.local" (by decide) 1 (by decide)

/-! ## C1 — the rename trigger rule -/

/-- Characterization of _should_rename_file on a filesystem where the empty
path does not exist (os.path.exists of an empty string is always False). -/
theorem should_rename_file_iff (env : Env) (fs : List String) (p name : String)
    (outside : Bool) (cmd : String) (hwf : fs.contains "" = false) :
    should_rename_file env fs p name outside cmd = true ↔
      (fs.contains p = true ∧
       (fs.contains (env.streamDir ++ "/" ++ name) = true ∨
        fs.contains (env.yaDisk ++ "/" ++ name) = true) ∧
       ((strStartsWith cmd "PublishToYandex" = true ∧ outside = true) ∨
        strStartsWith cmd "File" = true)) := by
  unfold should_rename_file
  by_cases hp : p = ""
  · subst hp
    rw [hwf]
    simp
  · rcases hcp : fs.contains p with _ | _
    · simp [hcp]
    · simp [hp, hcp, Bool.and_eq_true, Bool.or_eq_true]
      tauto

/-- The changed flag returned by _rename_file_if_needed equals the
_should_rename_file decision whenever the call returns without raising. -/
theorem rename_changed_eq (env : Env) (st : St) (p name dir : String) (outside : Bool)
    (cmd : String) (res : String × String × Bool)
    (h : (rename_file_if_needed env st p name dir outside cmd).2 = .ok res) :
    res.2.2 = should_rename_file env st.fs p name outside cmd := by
  unfold rename_file_if_needed at h
  rcases hsr : should_rename_file env st.fs p name outside cmd with _ | _
  · simp only [hsr, Bool.not_false, eq_self_iff_true, if_true] at h
    rw [← Except.ok.inj h]
  · simp only [hsr, Bool.not_true, Bool.false_eq_true, if_false] at h
    split at h
    · exact absurd h (by simp)
    · split at h
      · rw [← Except.ok.inj h]
      · exact absurd h (by simp)
      · exact absurd h (by simp)

/-- C1: in the parse-then-rename prelude, a pre-operation rename is
performed (the changed flag of the returned triple is true) if and only if
the input path exists AND a same-named entry exists in the stream
directory or the synced root AND the command is rename-sensitive: a
command whose name starts with the publish prefix applied to a path
outside the synced root, or a command whose name starts with the File
prefix.  The hypothesis h restricts to runs where the prelude completed
without an exception. -/
theorem c1_rename_trigger_iff (env : Env) (st : St) (filePath cmd : String)
    (hwf : st.fs.contains "" = false)
    (res : String × String × Bool)
    (h : (resolveConflictStep env st filePath cmd).2 = .ok res) :
    res.2.2 = true ↔
      (st.fs.contains filePath = true ∧
       (st.fs.contains (env.streamDir ++ "/" ++ pyBasename filePath) = true ∨
        st.fs.contains (env.yaDisk ++ "/" ++ pyBasename filePath) = true) ∧
       ((strStartsWith cmd "PublishToYandex" = true ∧
         strStartsWith filePath (env.yaDisk ++ "/") = false) ∨
        strStartsWith cmd "File" = true)) := by
  unfold resolveConflictStep at h
  have hchg := rename_changed_eq env st _ _ _ _ cmd res h
  rw [hchg]
  unfold parse_file_info
  by_cases hp : filePath = ""
  · subst hp
    simp only [reduceIte]
    rw [should_rename_file_iff env st.fs _ _ _ cmd hwf, hwf]
    simp
  · simp only [hp, reduceIte]
    rw [should_rename_file_iff env st.fs _ _ _ cmd hwf]
    simp only [Bool.not_eq_true']

/-- Environment for the C1 witness. -/
def c1Env : Env := { demoEnv with yaDisk := "/r/yaMedia", streamDir := "/r/yaMedia/Media" }

/-- State for the C1 witness: the source file exists outside the synced
root, and a same-named file already sits in the stream directory. -/
def c1St : St := initSt ["/o/f.txt", "/r/yaMedia/Media/f.txt"] none

/-- Witness for C1 at a concrete input: a FileAddToStream command on an
outside file with a stream conflict does trigger the rename. -/
theorem c1_rename_trigger_iff_witness :
    ((("/o/f_1.txt", "f_1.txt", true) : String × String × Bool).2.2 = true ↔
      (c1St.fs.contains "/o/f.txt" = true ∧
       (c1St.fs.contains (c1Env.streamDir ++ "/" ++ pyBasename "/o/f.txt") = true ∨
        c1St.fs.contains (c1Env.yaDisk ++ "/" ++ pyBasename "/o/f.txt") = true) ∧
       ((strStartsWith "FileAddToStream" "PublishToYandex" = true ∧
         strStartsWith "/o/f.txt" (c1Env.yaDisk ++ "/") = false) ∨
        strStartsWith "FileAddToStream" "File" = true))) :=
  c1_rename_trigger_iff c1Env c1St "/o/f.txt" "FileAddToStream" (by decide)
    ("/o/f_1.txt", "f_1.txt", true) rfl

/-! ## C7 — the readiness gate -/

theorem waitLoop_none_iff (statuses : Nat → Option String) :
    ∀ (fuel k : Nat), waitLoop statuses fuel k = none ↔
      ∀ j, k ≤ j → j < k + fuel → get_yandex_status (statuses j) ≠ "idle" := by
  intro fuel
  induction fuel with
  | zero =>
    intro k
    constructor
    · intro _ j h1 h2
      omega
    · intro _
      rfl
  | succ fuel ih =>
    intro k
    by_cases hidle : get_yandex_status (statuses k) = "idle"
    · rw [waitLoop, if_pos hidle]
      constructor
      · intro h
        exact absurd h (by simp)
      · intro hall
        exact absurd hidle (hall k (le_refl k) (by omega))
    · rw [waitLoop, if_neg hidle]
      rw [ih (k + 1)]
      constructor
      · intro hall j h1 h2
        rcases Nat.lt_or_ge j (k + 1) with hj | hj
        · have : j = k := by omega
          rw [this]
          exact hidle
        · exact hall j hj (by omega)
      · intro hall j h1 h2
        exact hall j (by omega) (by omega)

theorem waitLoop_some_spec (statuses : Nat → Option String) :
    ∀ (fuel k j : Nat), waitLoop statuses fuel k = some j →
      k ≤ j ∧ j < k + fuel ∧ get_yandex_status (statuses j) = "idle" ∧
      ∀ i, k ≤ i → i < j → get_yandex_status (statuses i) ≠ "idle" := by
  intro fuel
  induction fuel with
  | zero =>
    intro k j h
    exact absurd h (by simp [waitLoop])
  | succ fuel ih =>
    intro k j h
    by_cases hidle : get_yandex_status (statuses k) = "idle"
    · rw [waitLoop, if_pos hidle] at h
      have hj : k = j := Option.some.inj h
      subst hj
      exact ⟨le_refl k, by omega, hidle, fun i h1 h2 => by omega⟩
    · rw [waitLoop, if_neg hidle] at h
      obtain ⟨h1, h2, h3, h4⟩ := ih (k + 1) j h
      refine ⟨by omega, by omega, h3, ?_⟩
      intro i hi1 hi2
      rcases Nat.lt_or_ge i (k + 1) with hi | hi
      · have : i = k := by omega
        rw [this]
        exact hidle
      · exact h4 i hi hi2

/-- C7: when the initial status is idle the gate returns immediately with
zero notifications; otherwise it emits exactly one warning notification and
then polls up to WAIT_TIMEOUT further times, returning normally at the
first idle poll, and when no poll within the bound reports idle it emits
one error notification and terminates the dispatch with exit code 1. -/
theorem c7_wait_for_ready_gate (statuses : Nat → Option String) :
    (get_yandex_status (statuses 0) = "idle" →
      wait_for_ready statuses = ([], .normal, some 0)) ∧
    (get_yandex_status (statuses 0) ≠ "idle" →
      (∃ k, 1 ≤ k ∧ k ≤ WAIT_TIMEOUT ∧ get_yandex_status (statuses k) = "idle" ∧
        (∀ i, 1 ≤ i → i < k → get_yandex_status (statuses i) ≠ "idle") ∧
        wait_for_ready statuses =
          ([Event.notify ("Service status: " ++ get_yandex_status (statuses 0)) .warn],
            .normal, some k)) ∨
      ((∀ i, 1 ≤ i → i ≤ WAIT_TIMEOUT → get_yandex_status (statuses i) ≠ "idle") ∧
        wait_for_ready statuses =
          ([Event.notify ("Service status: " ++ get_yandex_status (statuses 0)) .warn,
            Event.notify "Service is not available" .error], .sysExit 1, none))) := by
  have hWT : WAIT_TIMEOUT = 30 := rfl
  constructor
  · intro h
    rw [wait_for_ready, if_pos h]
  · intro h
    rcases hw : waitLoop statuses WAIT_TIMEOUT 1 with _ | k
    · right
      constructor
      · intro i h1 h2
        exact (waitLoop_none_iff statuses WAIT_TIMEOUT 1).mp hw i h1 (by omega)
      · rw [wait_for_ready, if_neg h, hw]
    · left
      obtain ⟨h1, h2, h3, h4⟩ := waitLoop_some_spec statuses WAIT_TIMEOUT 1 k hw
      exact ⟨k, h1, by omega, h3, h4, by rw [wait_for_ready, if_neg h, hw]⟩

/-- Status responses for the C7 witness: the daemon is idle from the start. -/
def c7Statuses : Nat → Option String := fun _ => some "Synchronization core status: idle"

/-- Witness for C7 at a concrete input: with an initially idle daemon the
gate returns immediately with an empty event list. -/
theorem c7_wait_for_ready_gate_witness :
    wait_for_ready c7Statuses = ([], .normal, some 0) :=
  (c7_wait_for_ready_gate c7Statuses).1 (by decide)

/-! ## State-evolution lemmas

Tame st st' says a computation step from st to st' only appended events,
none of which is a rename-back invocation.  All single-item handlers are
tame; only the invocation of the rename-back closure itself adds a
renameBackCall event. -/

def Tame (st st' : St) : Prop :=
  ∃ d, st'.events = st.events ++ d ∧ renameBackCount d = 0

theorem Tame.tameRefl (st : St) : Tame st st := ⟨[], by simp, rfl⟩

theorem Tame.tameTrans {s1 s2 s3 : St} (h1 : Tame s1 s2) (h2 : Tame s2 s3) : Tame s1 s3 := by
  obtain ⟨d1, he1, hc1⟩ := h1
  obtain ⟨d2, he2, hc2⟩ := h2
  refine ⟨d1 ++ d2, ?_, ?_⟩
  · rw [he2, he1, List.append_assoc]
  · rw [renameBackCount, List.countP_append]
    rw [renameBackCount] at hc1 hc2
    omega

theorem renameBackCount_append (a b : List Event) :
    renameBackCount (a ++ b) = renameBackCount a + renameBackCount b :=
  List.countP_append _ _ _

theorem syncCount_append (a b : List Event) :
    syncCount (a ++ b) = syncCount a + syncCount b :=
  List.countP_append _ _ _

theorem clipWriteCount_append (a b : List Event) :
    clipWriteCount (a ++ b) = clipWriteCount a + clipWriteCount b :=
  List.countP_append _ _ _

/-- A tame step preserves the rename-back count. -/
theorem Tame.count {s1 s2 : St} (h : Tame s1 s2) :
    renameBackCount s2.events = renameBackCount s1.events := by
  obtain ⟨d, he, hc⟩ := h
  rw [he, renameBackCount_append, hc]
  exact Nat.add_zero _

/-- A tame step keeps every event already in the trace. -/
theorem Tame.mem {s1 s2 : St} (h : Tame s1 s2) {e : Event} (he : e ∈ s1.events) :
    e ∈ s2.events := by
  obtain ⟨d, hev, _⟩ := h
  rw [hev]
  exact List.mem_append_left d he

theorem tame_emit_of_not_rb (st : St) (e : Event) (h : isRenameBackEv e = false) :
    Tame st (emit st e) :=
  ⟨[e], rfl, by simp [renameBackCount, List.countP_cons, h]⟩

theorem tame_emit_notify (st : St) (msg : String) (sev : Sev) :
    Tame st (stNotify st msg sev) :=
  tame_emit_of_not_rb st (.notify msg sev) rfl

theorem tame_applyMove (st : St) (src dst : String) : Tame st (applyMove st src dst) :=
  ⟨[Event.fsMove src dst], rfl, rfl⟩

theorem tame_applyMoveInto (st : St) (src dir : String) :
    Tame st (applyMoveInto st src dir) :=
  ⟨[Event.fsMove src dir], rfl, rfl⟩

theorem tame_applyCopy (st : St) (src dst : String) : Tame st (applyCopy st src dst) :=
  ⟨[Event.fsCopy src dst], rfl, rfl⟩

theorem tame_applyCopyInto (st : St) (src dir : String) :
    Tame st (applyCopyInto st src dir) :=
  ⟨[Event.fsCopy src dir], rfl, rfl⟩

theorem tame_copy_to_clipboard (st : St) (text : String) :
    Tame st (copy_to_clipboard st text) :=
  ⟨[Event.clipWrite text], rfl, rfl⟩

theorem tame_clipboard_get_text (st : St) : Tame st (clipboard_get_text st).1 :=
  tame_emit_of_not_rb st .clipRead rfl

theorem tame_sync (env : Env) (st : St) : Tame st (sync_yandex_disk env st).1 := by
  unfold sync_yandex_disk
  rcases env.syncResp with _ | out
  · exact tame_emit_of_not_rb st .daemonSync rfl
  · exact tame_emit_of_not_rb st .daemonSync rfl

theorem tame_unpublish_file (env : Env) (st : St) (p : String) :
    Tame st (unpublish_file env st p).1 := by
  unfold unpublish_file
  rcases env.unpublishResp p with _ | out
  · exact tame_emit_of_not_rb st (.daemonUnpublish p) rfl
  · exact tame_emit_of_not_rb st (.daemonUnpublish p) rfl

theorem tame_publish_file (env : Env) (st : St) (p : String) (useCom : Bool) :
    Tame st (publish_file env st p useCom).1 := by
  simp only [publish_file]
  rcases env.publishResp p with _ | out
  · exact (tame_emit_of_not_rb st (.daemonPublish p) rfl).tameTrans (tame_emit_notify _ _ _)
  · dsimp only
    by_cases hv : hasErrorIndicator (pyStrip out) = true
    · rw [if_pos hv]
      exact (tame_emit_of_not_rb st (.daemonPublish p) rfl).tameTrans (tame_emit_notify _ _ _)
    · rw [if_neg hv]
      exact ((tame_emit_of_not_rb st (.daemonPublish p) rfl).tameTrans
        (tame_copy_to_clipboard _ _)).tameTrans (tame_emit_notify _ _ _)

/-- rename_back_run appends events containing exactly one rename-back
invocation and no sync. -/
theorem rename_back_run_shape (env : Env) (st : St) (changed : Bool) (sp op : String) :
    ∃ d, (rename_back_run env st changed sp op).1.events = st.events ++ d ∧
      renameBackCount d = 1 ∧ syncCount d = 0 := by
  simp only [rename_back_run]
  by_cases hc : (changed && (emit st (Event.renameBackCall op)).fs.contains sp) = true
  · rw [if_pos hc]
    cases env.moveRes sp op
    · exact ⟨[Event.renameBackCall op, Event.fsMove sp op],
        by simp [applyMove, emit], rfl, rfl⟩
    · exact ⟨[Event.renameBackCall op], rfl, rfl, rfl⟩
    · exact ⟨[Event.renameBackCall op], rfl, rfl, rfl⟩
  · rw [if_neg hc]
    exact ⟨[Event.renameBackCall op], rfl, rfl, rfl⟩

/-- When nothing remains at the renamed path, or no rename happened, the
rename-back closure only records its invocation: the filesystem, clipboard
and event trace are otherwise untouched and it returns ok. -/
theorem rename_back_run_noop (env : Env) (st : St) (changed : Bool) (sp op : String)
    (h : changed = false ∨ st.fs.contains sp = false) :
    rename_back_run env st changed sp op = (emit st (.renameBackCall op), .ok ()) := by
  have hcond : (changed && (emit st (Event.renameBackCall op)).fs.contains sp) = false := by
    have hfs : (emit st (Event.renameBackCall op)).fs = st.fs := rfl
    rw [hfs]
    rcases h with h | h
    · rw [h]
      exact Bool.false_and _
    · rw [h]
      exact Bool.and_false _
  simp only [rename_back_run]
  rw [if_neg (by rw [hcond]; exact Bool.false_ne_true)]

/-- TameNS st st' additionally requires that no sync event was appended. -/
def TameNS (st st' : St) : Prop :=
  ∃ d, st'.events = st.events ++ d ∧ renameBackCount d = 0 ∧ syncCount d = 0

theorem TameNS.toTame {s1 s2 : St} (h : TameNS s1 s2) : Tame s1 s2 :=
  ⟨h.choose, h.choose_spec.1, h.choose_spec.2.1⟩

theorem TameNS.tamensRefl (st : St) : TameNS st st := ⟨[], by simp, rfl, rfl⟩

theorem TameNS.tamensTrans {s1 s2 s3 : St} (h1 : TameNS s1 s2) (h2 : TameNS s2 s3) :
    TameNS s1 s3 := by
  obtain ⟨d1, he1, hc1, hs1⟩ := h1
  obtain ⟨d2, he2, hc2, hs2⟩ := h2
  refine ⟨d1 ++ d2, ?_, ?_, ?_⟩
  · rw [he2, he1, List.append_assoc]
  · rw [renameBackCount_append]
    omega
  · rw [syncCount_append]
    omega

theorem TameNS.syncEq {s1 s2 : St} (h : TameNS s1 s2) :
    syncCount s2.events = syncCount s1.events := by
  obtain ⟨d, he, _, hs⟩ := h
  rw [he, syncCount_append, hs]
  exact Nat.add_zero _

theorem tameNS_applyMove (st : St) (src dst : String) : TameNS st (applyMove st src dst) :=
  ⟨[Event.fsMove src dst], rfl, rfl, rfl⟩

theorem tameNS_emit_of_quiet (st : St) (e : Event)
    (h1 : isRenameBackEv e = false) (h2 : isSyncEv e = false) : TameNS st (emit st e) :=
  ⟨[e], rfl, by simp [renameBackCount, List.countP_cons, h1],
   by simp [syncCount, List.countP_cons, h2]⟩

theorem tameNS_rename_file_if_needed (env : Env) (st : St) (p name dir : String)
    (outside : Bool) (cmd : String) :
    TameNS st (rename_file_if_needed env st p name dir outside cmd).1 := by
  simp only [rename_file_if_needed]
  rcases hsr : should_rename_file env st.fs p name outside cmd with _ | _
  · rw [if_pos (by rfl)]
    exact TameNS.tamensRefl st
  · rw [if_neg (by decide)]
    rcases hgen : generate_unique_file_name env st.fs p name dir with _ | ⟨a, b⟩
    · exact TameNS.tamensRefl st
    · dsimp only
      cases env.moveRes p b
      · exact tameNS_applyMove st p b
      · exact TameNS.tamensRefl st
      · exact TameNS.tamensRefl st

theorem tameNS_resolveConflictStep (env : Env) (st : St) (p cmd : String) :
    TameNS st (resolveConflictStep env st p cmd).1 := by
  simp only [resolveConflictStep]
  exact tameNS_rename_file_if_needed env st _ _ _ _ cmd

/-- The readiness gate emits only notification events. -/
theorem wait_for_ready_events_notify (s : Nat → Option String) :
    ∀ e ∈ (wait_for_ready s).1, isNotifyEv e = true := by
  unfold wait_for_ready
  by_cases h : get_yandex_status (s 0) = "idle"
  · rw [if_pos h]
    intro e he
    exact absurd he (List.not_mem_nil e)
  · rw [if_neg h]
    cases waitLoop s WAIT_TIMEOUT 1
    · intro e he
      rcases List.mem_cons.mp he with h1 | h1
      · rw [h1]; rfl
      · rcases List.mem_cons.mp h1 with h2 | h2
        · rw [h2]; rfl
        · exact absurd h2 (List.not_mem_nil e)
    · intro e he
      rcases List.mem_cons.mp he with h1 | h1
      · rw [h1]; rfl
      · exact absurd h1 (List.not_mem_nil e)

theorem countP_eq_zero_of_all_notify (l : List Event)
    (h : ∀ e ∈ l, isNotifyEv e = true) (q : Event → Bool)
    (hq : ∀ e, isNotifyEv e = true → q e = false) : l.countP q = 0 := by
  induction l with
  | nil => rfl
  | cons a l ih =>
    rw [List.countP_cons]
    rw [hq a (h a (List.mem_cons_self a l))]
    simp only [Bool.false_eq_true, if_false, Nat.add_zero]
    exact ih (fun e he => h e (List.mem_cons_of_mem a he))

theorem tame_append_notify_events (st : St) (l : List Event)
    (h : ∀ e ∈ l, isNotifyEv e = true) :
    Tame st { st with events := st.events ++ l } :=
  ⟨l, rfl, countP_eq_zero_of_all_notify l h isRenameBackEv (fun e he => by
    cases e <;> simp [isNotifyEv, isRenameBackEv] at *)⟩

/-! ## Tame lemmas for the one-by-one handlers -/

theorem tame_collect_link (env : Env) (st : St) (cmd src : String) (outside : Bool)
    (yap : String) :
    Tame st (handle_publish_command_collect_link env st cmd src outside yap).1 := by
  simp only [handle_publish_command_collect_link]
  split
  next st1 e heq =>
    have h1 := tame_publish_file env (clipboard_get_text st).1 src
      (decide (cmd = "PublishToYandexCom"))
    rw [heq] at h1
    exact (tame_clipboard_get_text st).tameTrans h1
  next st1 r heq =>
    have h1 := tame_publish_file env (clipboard_get_text st).1 src
      (decide (cmd = "PublishToYandexCom"))
    rw [heq] at h1
    have h2 : Tame st st1 := (tame_clipboard_get_text st).tameTrans h1
    have h3 : Tame st (if (optTruthy (clipboard_get_text st).2) = true then
        copy_to_clipboard (clipboard_get_text st1).1 ((clipboard_get_text st).2.getD "")
      else (clipboard_get_text st1).1) := by
      by_cases ho : (optTruthy (clipboard_get_text st).2) = true
      · rw [if_pos ho]
        exact (h2.tameTrans (tame_clipboard_get_text st1)).tameTrans (tame_copy_to_clipboard _ _)
      · rw [if_neg ho]
        exact h2.tameTrans (tame_clipboard_get_text st1)
    by_cases hout : outside = true
    · rw [if_pos hout]
      cases env.moveRes yap env.streamDir
      · exact h3.tameTrans (tame_applyMoveInto _ _ _)
      · exact h3
      · exact h3
    · rw [if_neg hout]
      exact h3

theorem tame_handle_unpublish_command (env : Env) (st : St) (src name : String)
    (outside : Bool) :
    Tame st (handle_unpublish_command env st src name outside).1 := by
  simp only [handle_unpublish_command]
  split
  all_goals split
  all_goals exact (tame_unpublish_file env st _).tameTrans (tame_emit_notify _ _ _)

theorem tame_unpublishCopiesLoop (env : Env) (bd bf fn np ep : String) :
    ∀ (fuel idx : Nat) (st : St),
      Tame st (unpublishCopiesLoop env bd bf fn np ep fuel idx st).1 := by
  intro fuel
  induction fuel with
  | zero =>
    intro idx st
    exact Tame.tameRefl st
  | succ fuel ih =>
    intro idx st
    simp only [unpublishCopiesLoop]
    set cn := (if idx = 0 then fn else np ++ "_" ++ toString idx ++ ep)
    set cf := (if idx = 0 then bf else bd ++ "/" ++ (np ++ "_" ++ toString idx ++ ep))
    split
    · exact Tame.tameRefl st
    · split
      next st2 rest2 heq =>
        have h2 := ih (idx + 1) (unpublish_file env st cf).1
        rw [heq] at h2
        exact (tame_unpublish_file env st cf).tameTrans h2
      next st2 e2 heq =>
        have h2 := ih (idx + 1) (unpublish_file env st cf).1
        rw [heq] at h2
        exact (tame_unpublish_file env st cf).tameTrans h2

theorem tame_unpublish_copies (env : Env) (st : St) (bd bf fn : String) :
    Tame st (unpublish_copies env st bd bf fn).1 := by
  simp only [unpublish_copies]
  split
  next st2 results heq =>
    have h2 := tame_unpublishCopiesLoop env bd bf fn
      (if strStartsWith fn "." then fn else pyStem bf)
      (if strStartsWith fn "." then "" else pySuffix bf) env.fuel 0 st
    rw [heq] at h2
    exact h2
  next st2 e heq =>
    have h2 := tame_unpublishCopiesLoop env bd bf fn
      (if strStartsWith fn "." then fn else pyStem bf)
      (if strStartsWith fn "." then "" else pySuffix bf) env.fuel 0 st
    rw [heq] at h2
    exact h2

theorem tame_handle_unpublish_all_command (env : Env) (st : St) (src name dir : String)
    (outside : Bool) :
    Tame st (handle_unpublish_all_command env st src name dir outside).1 := by
  simp only [handle_unpublish_all_command]
  by_cases ho : outside = true
  · rw [if_pos ho]
    split
    next st2 result heq =>
      have h2 := tame_unpublish_copies env st env.streamDir
        (env.streamDir ++ "/" ++ name) name
      rw [heq] at h2
      exact h2.tameTrans (tame_emit_notify _ _ _)
    next st2 e heq =>
      have h2 := tame_unpublish_copies env st env.streamDir
        (env.streamDir ++ "/" ++ name) name
      rw [heq] at h2
      exact h2
  · rw [if_neg ho]
    split
    next st2 result heq =>
      have h2 := tame_unpublish_copies env st dir src name
      rw [heq] at h2
      exact h2.tameTrans (tame_emit_notify _ _ _)
    next st2 e heq =>
      have h2 := tame_unpublish_copies env st dir src name
      rw [heq] at h2
      exact h2

/-- The per-item action of every one-by-one command is tame: it never
invokes the rename-back closure itself. -/
theorem tame_stepBody (env : Env) (cmd : String) (st : St)
    (src name dir : String) (outside : Bool) (yap : String)
    (hcmd : cmd ∈ ONE_BY_ONE_COMMANDS) :
    Tame st (stepBody env cmd st src name dir outside yap).1 := by
  simp only [ONE_BY_ONE_COMMANDS, List.mem_cons, List.mem_singleton] at hcmd
  rcases hcmd with rfl | rfl | rfl | rfl | h
  · exact tame_collect_link env st _ src outside yap
  · exact tame_collect_link env st _ src outside yap
  · show Tame st ((match handle_unpublish_command env st src name outside with
      | (st, .ok _) => (st, Except.ok (none : Option String))
      | (st, .error e) => (st, .error e)).1)
    rcases hu : handle_unpublish_command env st src name outside with ⟨st2, r⟩
    have h2 := tame_handle_unpublish_command env st src name outside
    rw [hu] at h2
    cases r
    · exact h2
    · exact h2
  · show Tame st ((match handle_unpublish_all_command env st src name dir outside with
      | (st, .ok _) => (st, Except.ok (none : Option String))
      | (st, .error e) => (st, .error e)).1)
    rcases hu : handle_unpublish_all_command env st src name dir outside with ⟨st2, r⟩
    have h2 := tame_handle_unpublish_all_command env st src name dir outside
    rw [hu] at h2
    cases r
    · exact h2
    · exact h2
  · exact absurd h (List.not_mem_nil cmd)

/-! ## The per-item step: trace shape, rename-back counting, error keying -/

theorem stepItem_main (env : Env) (cmd : String) (st : St) (p : String)
    (hcmd : cmd ∈ ONE_BY_ONE_COMMANDS) :
    (∃ d, (stepItem env cmd st p).st.events = st.events ++ (Event.itemStart p :: d)) ∧
    renameBackCount (stepItem env cmd st p).st.events ≤ renameBackCount st.events + 1 ∧
    ((stepItem env cmd st p).done = true →
      renameBackCount (stepItem env cmd st p).st.events
        = renameBackCount st.events + 1) ∧
    ((stepItem env cmd st p).err = none ∨
      ∃ m, (stepItem env cmd st p).err = some (p, m)) := by
  have hev0 : (emit st (Event.itemStart p)).events = st.events ++ [Event.itemStart p] := rfl
  have hc0 : renameBackCount (emit st (Event.itemStart p)).events = renameBackCount st.events :=
    (tame_emit_of_not_rb st (Event.itemStart p) rfl).count
  simp only [stepItem]
  split
  next st1 m heq =>
    have t1 := (tameNS_resolveConflictStep env (emit st (Event.itemStart p)) p cmd).toTame
    rw [heq] at t1
    dsimp only at t1
    have hcount : renameBackCount st1.events = renameBackCount st.events := by
      rw [t1.count, hc0]
    obtain ⟨d1, he1, _⟩ := t1
    refine ⟨⟨d1, by rw [he1, hev0]; simp⟩, ?_, ?_, Or.inr ⟨m, rfl⟩⟩
    · rw [hcount]
      exact Nat.le_succ _
    · intro hd
      exact absurd hd (by simp)
  next st1 c heq =>
    have t1 := (tameNS_resolveConflictStep env (emit st (Event.itemStart p)) p cmd).toTame
    rw [heq] at t1
    dsimp only at t1
    have hcount : renameBackCount st1.events = renameBackCount st.events := by
      rw [t1.count, hc0]
    obtain ⟨d1, he1, _⟩ := t1
    refine ⟨⟨d1, by rw [he1, hev0]; simp⟩, ?_, ?_, Or.inl rfl⟩
    · rw [hcount]
      exact Nat.le_succ _
    · intro hd
      exact absurd hd (by simp)
  next st1 heq =>
    have t1 := (tameNS_resolveConflictStep env (emit st (Event.itemStart p)) p cmd).toTame
    rw [heq] at t1
    dsimp only at t1
    have hcount : renameBackCount st1.events = renameBackCount st.events := by
      rw [t1.count, hc0]
    obtain ⟨d1, he1, _⟩ := t1
    refine ⟨⟨d1, by rw [he1, hev0]; simp⟩, ?_, ?_, Or.inl rfl⟩
    · rw [hcount]
      exact Nat.le_succ _
    · intro hd
      exact absurd hd (by simp)
  next st1 info heq1 =>
    have t1 := (tameNS_resolveConflictStep env (emit st (Event.itemStart p)) p cmd).toTame
    rw [heq1] at t1
    dsimp only at t1
    split
    next st2 m heq2 =>
      have t2 := (tame_stepBody env cmd st1 info.1 info.2.1
        (parse_file_info env p).2.2.1 (parse_file_info env p).2.2.2
        (env.yaDisk ++ "/" ++ info.2.1) hcmd)
      rw [heq2] at t2
      dsimp only at t2
      have t02 : Tame st st2 :=
        ((tame_emit_of_not_rb st (Event.itemStart p) rfl).tameTrans t1).tameTrans t2
      obtain ⟨d2, he2, _⟩ := t1.tameTrans t2
      refine ⟨⟨d2, by rw [he2, hev0]; simp⟩, ?_, ?_, Or.inr ⟨m, rfl⟩⟩
      · rw [t02.count]
        exact Nat.le_succ _
      · intro hd
        exact absurd hd (by simp)
    next st2 c heq2 =>
      have t2 := (tame_stepBody env cmd st1 info.1 info.2.1
        (parse_file_info env p).2.2.1 (parse_file_info env p).2.2.2
        (env.yaDisk ++ "/" ++ info.2.1) hcmd)
      rw [heq2] at t2
      dsimp only at t2
      have t02 : Tame st st2 :=
        ((tame_emit_of_not_rb st (Event.itemStart p) rfl).tameTrans t1).tameTrans t2
      obtain ⟨d2, he2, _⟩ := t1.tameTrans t2
      refine ⟨⟨d2, by rw [he2, hev0]; simp⟩, ?_, ?_, Or.inl rfl⟩
      · rw [t02.count]
        exact Nat.le_succ _
      · intro hd
        exact absurd hd (by simp)
    next st2 heq2 =>
      have t2 := (tame_stepBody env cmd st1 info.1 info.2.1
        (parse_file_info env p).2.2.1 (parse_file_info env p).2.2.2
        (env.yaDisk ++ "/" ++ info.2.1) hcmd)
      rw [heq2] at t2
      dsimp only at t2
      have t02 : Tame st st2 :=
        ((tame_emit_of_not_rb st (Event.itemStart p) rfl).tameTrans t1).tameTrans t2
      obtain ⟨d2, he2, _⟩ := t1.tameTrans t2
      refine ⟨⟨d2, by rw [he2, hev0]; simp⟩, ?_, ?_, Or.inl rfl⟩
      · rw [t02.count]
        exact Nat.le_succ _
      · intro hd
        exact absurd hd (by simp)
    next st2 link heq2 =>
      have t2 := (tame_stepBody env cmd st1 info.1 info.2.1
        (parse_file_info env p).2.2.1 (parse_file_info env p).2.2.2
        (env.yaDisk ++ "/" ++ info.2.1) hcmd)
      rw [heq2] at t2
      dsimp only at t2
      have t02 : Tame st st2 :=
        ((tame_emit_of_not_rb st (Event.itemStart p) rfl).tameTrans t1).tameTrans t2
      obtain ⟨db, heb, _⟩ := t1.tameTrans t2
      obtain ⟨d3, he3, hc3, _⟩ := rename_back_run_shape env st2 info.2.2 info.1 p
      split
      next st3 u heq3 =>
        have he3t := he3
        rw [heq3] at he3t
        dsimp only at he3t
        have hcA : renameBackCount st3.events = renameBackCount st.events + 1 := by
          rw [he3t, renameBackCount_append, hc3, t02.count]
        refine ⟨⟨db ++ d3, by rw [he3t, heb, hev0]; simp⟩, ?_, ?_, Or.inl rfl⟩
        · rw [hcA]
        · intro _
          rw [hcA]
      next st3 m heq3 =>
        have he3t := he3
        rw [heq3] at he3t
        dsimp only at he3t
        have hcA : renameBackCount st3.events = renameBackCount st.events + 1 := by
          rw [he3t, renameBackCount_append, hc3, t02.count]
        refine ⟨⟨db ++ d3, by rw [he3t, heb, hev0]; simp⟩, ?_, ?_, Or.inr ⟨m, rfl⟩⟩
        · rw [hcA]
        · intro hd
          exact absurd hd (by simp)
      next st3 c heq3 =>
        have he3t := he3
        rw [heq3] at he3t
        dsimp only at he3t
        have hcA : renameBackCount st3.events = renameBackCount st.events + 1 := by
          rw [he3t, renameBackCount_append, hc3, t02.count]
        refine ⟨⟨db ++ d3, by rw [he3t, heb, hev0]; simp⟩, ?_, ?_, Or.inl rfl⟩
        · rw [hcA]
        · intro hd
          exact absurd hd (by simp)
      next st3 heq3 =>
        have he3t := he3
        rw [heq3] at he3t
        dsimp only at he3t
        have hcA : renameBackCount st3.events = renameBackCount st.events + 1 := by
          rw [he3t, renameBackCount_append, hc3, t02.count]
        refine ⟨⟨db ++ d3, by rw [he3t, heb, hev0]; simp⟩, ?_, ?_, Or.inl rfl⟩
        · rw [hcA]
        · intro hd
          exact absurd hd (by simp)

theorem stepItem_events_mono (env : Env) (cmd : String) (st : St) (p : String)
    (hcmd : cmd ∈ ONE_BY_ONE_COMMANDS) {e : Event} (he : e ∈ st.events) :
    e ∈ (stepItem env cmd st p).st.events := by
  obtain ⟨d, hd⟩ := (stepItem_main env cmd st p hcmd).1
  rw [hd]
  exact List.mem_append_left _ he

theorem stepItem_itemStart_mem (env : Env) (cmd : String) (st : St) (p : String)
    (hcmd : cmd ∈ ONE_BY_ONE_COMMANDS) :
    Event.itemStart p ∈ (stepItem env cmd st p).st.events := by
  obtain ⟨d, hd⟩ := (stepItem_main env cmd st p hcmd).1
  rw [hd]
  exact List.mem_append_right _ (List.mem_cons_self _ _)

theorem runItems_events_mono (env : Env) (cmd : String)
    (hcmd : cmd ∈ ONE_BY_ONE_COMMANDS) :
    ∀ (paths : List String) (st : St) (errs : List (String × String)) (cnt : Nat)
      (links : List String) (e : Event), e ∈ st.events →
      e ∈ (runItems env cmd paths st errs cnt links).1.events := by
  intro paths
  induction paths with
  | nil =>
    intro st errs cnt links e he
    exact he
  | cons p rest ih =>
    intro st errs cnt links e he
    simp only [runItems]
    split
    next o hab =>
      exact stepItem_events_mono env cmd st p hcmd he
    next hab =>
      exact ih _ _ _ _ e (stepItem_events_mono env cmd st p hcmd he)

/-! ## C2 — restore invocation discipline -/

/-- Environment for the C2 counterexample: moving the published outside
file into the stream directory fails with an OSError, making the per-item
operation raise an ordinary Exception after the publish succeeded. -/
def c2Env : Env :=
  { demoEnv with
    moveRes := fun src _ => if src = "/r/yaMedia/x.txt" then .err "OSError: boom" else .ok }

/-- C2 counterexample: the claim states the restore action runs whether the
downstream operation succeeded or raised, but for an item whose operation
raises an Exception the rename-back closure is never invoked: the failure
is recorded and the trace contains zero rename-back invocations. -/
theorem c2_restore_counterexample :
    renameBackCount (stepItem c2Env "PublishToYandexCom"
      (initSt ["/o/x.txt"] none) "/o/x.txt").st.events = 0 ∧
    (stepItem c2Env "PublishToYandexCom" (initSt ["/o/x.txt"] none) "/o/x.txt").err
      = some ("/o/x.txt", "OSError: boom") ∧
    (stepItem c2Env "PublishToYandexCom" (initSt ["/o/x.txt"] none) "/o/x.txt").done
      = false := by
  refine ⟨?_, ?_, ?_⟩ <;> decide

/-- C2 amended: per item of a one-by-one command, the rename-back closure
is invoked at most once; it is invoked exactly once when the item completes
without raising (then processed_count is incremented); when the item body
raises before the invocation it is skipped (see the counterexample); and
invoking the closure when no rename happened or when nothing remains at
the renamed path is a pure no-op apart from recording the invocation. -/
theorem c2_restore_invocation :
    (∀ (env : Env) (cmd : String) (st : St) (p : String),
      cmd ∈ ONE_BY_ONE_COMMANDS →
      renameBackCount (stepItem env cmd st p).st.events
        ≤ renameBackCount st.events + 1) ∧
    (∀ (env : Env) (cmd : String) (st : St) (p : String),
      cmd ∈ ONE_BY_ONE_COMMANDS →
      (stepItem env cmd st p).done = true →
      renameBackCount (stepItem env cmd st p).st.events
        = renameBackCount st.events + 1) ∧
    (∀ (env : Env) (st : St) (changed : Bool) (sp op : String),
      changed = false ∨ st.fs.contains sp = false →
      rename_back_run env st changed sp op = (emit st (.renameBackCall op), .ok ())) :=
  ⟨fun env cmd st p h => ((stepItem_main env cmd st p h).2).1,
   fun env cmd st p h => ((stepItem_main env cmd st p h).2).2.1 ,
   rename_back_run_noop⟩

/-- Witness for C2 at concrete inputs: the bound holds on a successful
unpublish item, and the no-op clause holds when no rename happened. -/
theorem c2_restore_invocation_witness :
    renameBackCount (stepItem demoEnv "UnpublishFromYandex"
      (initSt [] none) "/o/a.txt").st.events
      ≤ renameBackCount (initSt [] none).events + 1 ∧
    rename_back_run demoEnv (initSt [] none) false "/o/a.txt" "/o/a.txt"
      = (emit (initSt [] none) (.renameBackCall "/o/a.txt"), .ok ()) :=
  ⟨c2_restore_invocation.1 demoEnv "UnpublishFromYandex" (initSt [] none) "/o/a.txt"
      (by decide),
   c2_restore_invocation.2.2 demoEnv (initSt [] none) false "/o/a.txt" "/o/a.txt"
      (Or.inl rfl)⟩

/-! ## C3 — per-item failure isolation -/

/-- Environment for the C3 counterexample: the daemon publish call fails
for the second item (CalledProcessError), which makes publish_file call
show_error_and_exit, raising SystemExit. -/
def c3Env : Env :=
  { demoEnv with
    publishResp := fun p =>
      if p = "/r/yaMedia/b.txt" then none else some "https://yadi.sk/d/x" }

/-- C3 counterexample: the claim states that an item whose action raises is
recorded and never aborts the batch or the process, but when the daemon
publish fails for item 2 of 3, publish_file exits via SystemExit, which
`except Exception` does not catch: the loop aborts with exit code 1, no
failure entry is recorded for item 2, and item 3 is never attempted. -/
theorem c3_abort_counterexample :
    (runItems c3Env "PublishToYandexCom"
      ["/r/yaMedia/a.txt", "/r/yaMedia/b.txt", "/r/yaMedia/c.txt"]
      (initSt [] none) [] 0 []).2.2.2.2 = some (.sysExit 1) ∧
    (runItems c3Env "PublishToYandexCom"
      ["/r/yaMedia/a.txt", "/r/yaMedia/b.txt", "/r/yaMedia/c.txt"]
      (initSt [] none) [] 0 []).2.1 = [] ∧
    ¬ (Event.itemStart "/r/yaMedia/c.txt" ∈ (runItems c3Env "PublishToYandexCom"
      ["/r/yaMedia/a.txt", "/r/yaMedia/b.txt", "/r/yaMedia/c.txt"]
      (initSt [] none) [] 0 []).1.events) := by
  refine ⟨?_, ?_, ?_⟩ <;> decide

/-- C3 amended: an item whose action raises an ordinary Exception is caught
and recorded keyed by the original (pre-rename) path and the loop continues
with the remaining items; when the whole loop finishes without a
process-exit, every input item was attempted.  (An action that terminates
via SystemExit — as publish_file does on a failed daemon publish — aborts
the batch and the process instead; see the counterexample.) -/
theorem c3_exception_isolation :
    (∀ (env : Env) (cmd p : String) (rest : List String) (st : St)
       (errs : List (String × String)) (cnt : Nat) (links : List String),
      (stepItem env cmd st p).abort = none →
      runItems env cmd (p :: rest) st errs cnt links =
        runItems env cmd rest (stepItem env cmd st p).st
          (match (stepItem env cmd st p).err with
           | some e => errs ++ [e]
           | none => errs)
          (if (stepItem env cmd st p).done then cnt + 1 else cnt)
          (match (stepItem env cmd st p).link with
           | some l => links ++ [l]
           | none => links)) ∧
    (∀ (env : Env) (cmd : String) (st : St) (p : String),
      cmd ∈ ONE_BY_ONE_COMMANDS →
      (stepItem env cmd st p).err = none ∨
        ∃ m, (stepItem env cmd st p).err = some (p, m)) ∧
    (∀ (env : Env) (cmd : String) (paths : List String) (st : St)
       (errs : List (String × String)) (cnt : Nat) (links : List String),
      cmd ∈ ONE_BY_ONE_COMMANDS →
      (runItems env cmd paths st errs cnt links).2.2.2.2 = none →
      ∀ q ∈ paths,
        Event.itemStart q ∈ (runItems env cmd paths st errs cnt links).1.events) := by
  refine ⟨?_, ?_, ?_⟩
  · intro env cmd p rest st errs cnt links hab
    simp only [runItems]
    rw [hab]
  · intro env cmd st p hcmd
    exact (stepItem_main env cmd st p hcmd).2.2.2
  · intro env cmd paths
    induction paths with
    | nil =>
      intro st errs cnt links hcmd hout q hq
      exact absurd hq (List.not_mem_nil q)
    | cons p rest ih =>
      intro st errs cnt links hcmd hout q hq
      rw [runItems] at hout ⊢
      rcases hab : (stepItem env cmd st p).abort with _ | o
      · rw [hab] at hout
        dsimp only at hout ⊢
        rcases List.mem_cons.mp hq with h1 | h1
        · rw [h1]
          exact runItems_events_mono env cmd hcmd rest _ _ _ _ _
            (stepItem_itemStart_mem env cmd st p hcmd)
        · exact ih _ _ _ _ hcmd hout q h1
      · rw [hab] at hout
        exact absurd hout (by simp)

/-- Witness for C3 at concrete inputs: a successful unpublish item
continues the loop with unchanged accumulators, and every item of the
singleton batch is attempted. -/
theorem c3_exception_isolation_witness :
    runItems demoEnv "UnpublishFromYandex" ["/o/a.txt"] (initSt [] none) [] 0 [] =
      runItems demoEnv "UnpublishFromYandex" []
        (stepItem demoEnv "UnpublishFromYandex" (initSt [] none) "/o/a.txt").st
        (match (stepItem demoEnv "UnpublishFromYandex" (initSt [] none) "/o/a.txt").err with
         | some e => [] ++ [e]
         | none => [])
        (if (stepItem demoEnv "UnpublishFromYandex" (initSt [] none) "/o/a.txt").done
         then 0 + 1 else 0)
        (match (stepItem demoEnv "UnpublishFromYandex" (initSt [] none) "/o/a.txt").link with
         | some l => [] ++ [l]
         | none => []) :=
  c3_exception_isolation.1 demoEnv "UnpublishFromYandex" "/o/a.txt" [] (initSt [] none)
    [] 0 [] (by decide)

/-! ## C10 — the success-summary branch raises AttributeError -/

theorem stepBody_link_none (env : Env) (cmd : String) (st : St)
    (src name dir : String) (outside : Bool) (yap : String)
    (h : ¬(cmd = "PublishToYandexCom" ∨ cmd = "PublishToYandex")) :
    ∀ (st2 : St) (r : Option String),
      stepBody env cmd st src name dir outside yap = (st2, .ok r) → r = none := by
  simp only [stepBody, if_neg h]
  intro st2 r hr
  rcases hx : execute_command env st cmd src name dir outside yap with ⟨sx, rx⟩
  rw [hx] at hr
  cases rx
  · dsimp only at hr
    have := (Prod.mk.injEq _ _ _ _).mp hr
    exact absurd this.2 (by simp)
  · dsimp only at hr
    have := (Prod.mk.injEq _ _ _ _).mp hr
    exact (Except.ok.inj this.2).symm

theorem stepItem_link_none (env : Env) (cmd : String) (st : St) (p : String)
    (h : ¬(cmd = "PublishToYandexCom" ∨ cmd = "PublishToYandex")) :
    (stepItem env cmd st p).link = none := by
  simp only [stepItem]
  split
  next st1 m heq => rfl
  next st1 c heq => rfl
  next st1 heq => rfl
  next st1 info heq1 =>
    split
    next st2 m heq2 => rfl
    next st2 c heq2 => rfl
    next st2 heq2 => rfl
    next st2 link heq2 =>
      have hlink : link = none := stepBody_link_none env cmd st1 info.1 info.2.1
        (parse_file_info env p).2.2.1 (parse_file_info env p).2.2.2
        (env.yaDisk ++ "/" ++ info.2.1) h st2 link heq2
      subst hlink
      split
      next st3 u heq3 => rfl
      next st3 m heq3 => rfl
      next st3 c heq3 => rfl
      next st3 heq3 => rfl

theorem runItems_links_const (env : Env) (cmd : String)
    (h : ¬(cmd = "PublishToYandexCom" ∨ cmd = "PublishToYandex")) :
    ∀ (paths : List String) (st : St) (errs : List (String × String)) (cnt : Nat)
      (links : List String),
      (runItems env cmd paths st errs cnt links).2.2.2.1 = links := by
  intro paths
  induction paths with
  | nil =>
    intro st errs cnt links
    rfl
  | cons p rest ih =>
    intro st errs cnt links
    rw [runItems]
    have hl := stepItem_link_none env cmd st p h
    rw [hl]
    rcases hab : (stepItem env cmd st p).abort with _ | o
    · dsimp only
      exact ih _ _ _ _
    · rfl

/-- C10: for a non-publish one-by-one command (UnpublishFromYandex or
UnpublishAllCopy), when the per-item loop finishes with no recorded
failure and at least two processed items, the summary step evaluates the
nonexistent attribute self.Constants and raises AttributeError: the
dispatch returns the loop state unchanged (no success notification) with
an unhandled-exception outcome. -/
theorem c10_summary_attribute_error (env : Env) (cmd : String) (paths : List String)
    (st : St)
    (hcmd : cmd = "UnpublishFromYandex" ∨ cmd = "UnpublishAllCopy")
    (hout : (runItems env cmd paths st [] 0 []).2.2.2.2 = none)
    (herr : (runItems env cmd paths st [] 0 []).2.1 = [])
    (hcnt : (runItems env cmd paths st [] 0 []).2.2.1 ≥ 2) :
    handle_individual_commands env cmd paths st =
      ((runItems env cmd paths st [] 0 []).1,
       .pyFatal "AttributeError: CommandProcessor object has no attribute Constants") := by
  have hne : ¬(cmd = "PublishToYandexCom" ∨ cmd = "PublishToYandex") := by
    rcases hcmd with rfl | rfl
    · decide
    · decide
  have hlinks : (runItems env cmd paths st [] 0 []).2.2.2.1 = [] :=
    runItems_links_const env cmd hne paths st [] 0 []
  unfold handle_individual_commands
  rcases hr : runItems env cmd paths st [] 0 [] with ⟨st1, errs1, cnt1, links1, ab⟩
  rw [hr] at hout herr hcnt hlinks
  dsimp only at hout herr hcnt hlinks
  subst hout
  subst herr
  subst hlinks
  dsimp only
  unfold individualSummary
  have h1 : ¬(([] : List String) ≠ []) := by simp
  rw [if_neg h1]
  have h2 : ¬(([] : List (String × String)) ≠ [] ∧ cnt1 > 0) := by simp
  rw [if_neg h2]
  have h3 : ¬(([] : List (String × String)) ≠ []) := by simp
  rw [if_neg h3]
  have h4 : cnt1 > 1 ∧ ([] : List String) = [] := ⟨by omega, rfl⟩
  rw [if_pos h4]
  have h5 : ¬(commandProcessorHasAttr "Constants" = true) := by decide
  rw [if_neg h5]

/-- Witness for C10 at a concrete input: two successful unpublish items end
with the AttributeError instead of the success summary. -/
theorem c10_summary_attribute_error_witness :
    handle_individual_commands demoEnv "UnpublishFromYandex" ["/o/a.txt", "/o/b.txt"]
      (initSt [] none) =
      ((runItems demoEnv "UnpublishFromYandex" ["/o/a.txt", "/o/b.txt"]
        (initSt [] none) [] 0 []).1,
       .pyFatal "AttributeError: CommandProcessor object has no attribute Constants") :=
  c10_summary_attribute_error demoEnv "UnpublishFromYandex" ["/o/a.txt", "/o/b.txt"]
    (initSt [] none) (Or.inl rfl) (by decide) (by decide) (by decide)

/-! ## C8 — unknown commands raise AttributeError (code bug) -/

/-- C8 (code bug): the claim requires exactly one unknown-action
notification, no file processing and no fatal error, but
_handle_unknown_command builds its notification text from
self.yd_menu.KDE_SERVICE_MENU_PATH, an attribute defined on the Constants
class and not on YandexDiskMenu, so for every command outside the three
command tables the dispatch raises AttributeError before showing anything:
the state (hence the notification trace) is unchanged and the dispatch
ends as an unhandled exception. -/
theorem c8_unknown_command_attribute_error (env : Env) (st : St) (cmd : String)
    (paths : List String)
    (h1 : CLIPBOARD_COMMANDS.contains cmd = false)
    (h2 : ALL_AT_ONCE_COMMANDS.contains cmd = false)
    (h3 : ONE_BY_ONE_COMMANDS.contains cmd = false) :
    process_command env st cmd paths =
      (st, .pyFatal
        "AttributeError: YandexDiskMenu object has no attribute KDE_SERVICE_MENU_PATH") := by
  unfold process_command
  rw [h1, h2, h3]
  simp only [Bool.false_eq_true, if_false]
  rfl

/-- Witness for C8 at a concrete input. -/
theorem c8_unknown_command_attribute_error_witness :
    process_command demoEnv (initSt [] none) "FrobnicateAction" [] =
      ((initSt [] none), .pyFatal
        "AttributeError: YandexDiskMenu object has no attribute KDE_SERVICE_MENU_PATH") :=
  c8_unknown_command_attribute_error demoEnv (initSt [] none) "FrobnicateAction" []
    (by decide) (by decide) (by decide)

/-! ## C4 — exactly one sync per batch -/

/-- SyncQuiet st st' says a computation step only appended events, none of
which is a sync invocation. -/
def SyncQuiet (st st' : St) : Prop :=
  ∃ d, st'.events = st.events ++ d ∧ syncCount d = 0

theorem SyncQuiet.sqRefl (st : St) : SyncQuiet st st := ⟨[], by simp, rfl⟩

theorem SyncQuiet.sqTrans {s1 s2 s3 : St} (h1 : SyncQuiet s1 s2) (h2 : SyncQuiet s2 s3) :
    SyncQuiet s1 s3 := by
  obtain ⟨d1, he1, hc1⟩ := h1
  obtain ⟨d2, he2, hc2⟩ := h2
  refine ⟨d1 ++ d2, ?_, ?_⟩
  · rw [he2, he1, List.append_assoc]
  · rw [syncCount_append]
    omega

theorem TameNS.toSyncQuiet {s1 s2 : St} (h : TameNS s1 s2) : SyncQuiet s1 s2 :=
  ⟨h.choose, h.choose_spec.1, h.choose_spec.2.2⟩

theorem syncQuiet_emit (st : St) (e : Event) (h : isSyncEv e = false) :
    SyncQuiet st (emit st e) :=
  ⟨[e], rfl, by simp [syncCount, List.countP_cons, h]⟩

theorem syncQuiet_applyCopy (st : St) (src dst : String) :
    SyncQuiet st (applyCopy st src dst) := ⟨[Event.fsCopy src dst], rfl, rfl⟩

theorem syncQuiet_applyCopyInto (st : St) (src dir : String) :
    SyncQuiet st (applyCopyInto st src dir) := ⟨[Event.fsCopy src dir], rfl, rfl⟩

theorem syncQuiet_applyMove (st : St) (src dst : String) :
    SyncQuiet st (applyMove st src dst) := ⟨[Event.fsMove src dst], rfl, rfl⟩

theorem syncQuiet_applyMoveInto (st : St) (src dir : String) :
    SyncQuiet st (applyMoveInto st src dir) := ⟨[Event.fsMove src dir], rfl, rfl⟩

theorem syncQuiet_invokeRB (env : Env) (st : St)
    (rb : Option (Bool × String × String)) : SyncQuiet st (invokeRB env st rb).1 := by
  cases rb with
  | none => exact SyncQuiet.sqRefl st
  | some t =>
    obtain ⟨d, he, _, hs⟩ := rename_back_run_shape env st t.1 t.2.1 t.2.2
    exact ⟨d, he, hs⟩

theorem batchPrep_syncQuiet (env : Env) (cmd : String) (isCopy : Bool) :
    ∀ (paths : List String) (st : St) (acc : List BatchItem)
      (errs : List (String × String)),
      SyncQuiet st (batchPrep env cmd isCopy paths st acc errs).1 := by
  intro paths
  induction paths with
  | nil =>
    intro st acc errs
    exact SyncQuiet.sqRefl st
  | cons p rest ih =>
    intro st acc errs
    simp only [batchPrep]
    split
    next st1 info heq =>
      have t1 := (tameNS_resolveConflictStep env st p cmd).toSyncQuiet
      rw [heq] at t1
      exact t1.sqTrans (ih _ _ _)
    next st1 m heq =>
      have t1 := (tameNS_resolveConflictStep env st p cmd).toSyncQuiet
      rw [heq] at t1
      exact t1.sqTrans (ih _ _ _)
    next st1 c heq =>
      have t1 := (tameNS_resolveConflictStep env st p cmd).toSyncQuiet
      rw [heq] at t1
      exact t1
    next st1 heq =>
      have t1 := (tameNS_resolveConflictStep env st p cmd).toSyncQuiet
      rw [heq] at t1
      exact t1

theorem batchAddLoop_syncQuiet (env : Env) :
    ∀ (items : List BatchItem) (st : St) (copied : List String)
      (errs : List (String × String)),
      SyncQuiet st (batchAddLoop env items st copied errs).1 := by
  intro items
  induction items with
  | nil =>
    intro st copied errs
    exact SyncQuiet.sqRefl st
  | cons it rest ih =>
    intro st copied errs
    obtain ⟨src, nm, rb⟩ := it
    simp only [batchAddLoop]
    have h0 : SyncQuiet st (emit st (Event.itemStart src)) :=
      syncQuiet_emit st _ rfl
    by_cases hd : env.isDir src = true
    · rw [if_pos hd]
      cases env.copytreeRes src (env.streamDir ++ "/" ++ pyBasename (rstripSlashes src))
      · dsimp only
        split
        next st2 u heq =>
          have t2 := syncQuiet_invokeRB env
            (applyCopy (emit st (Event.itemStart src)) src
              (env.streamDir ++ "/" ++ pyBasename (rstripSlashes src))) rb
          rw [heq] at t2
          exact (((h0.sqTrans (syncQuiet_applyCopy _ _ _)).sqTrans t2).sqTrans (ih _ _ _))
        next st2 m heq =>
          have t2 := syncQuiet_invokeRB env
            (applyCopy (emit st (Event.itemStart src)) src
              (env.streamDir ++ "/" ++ pyBasename (rstripSlashes src))) rb
          rw [heq] at t2
          exact (((h0.sqTrans (syncQuiet_applyCopy _ _ _)).sqTrans t2).sqTrans (ih _ _ _))
        next st2 e heq =>
          have t2 := syncQuiet_invokeRB env
            (applyCopy (emit st (Event.itemStart src)) src
              (env.streamDir ++ "/" ++ pyBasename (rstripSlashes src))) rb
          rw [heq] at t2
          exact (((h0.sqTrans (syncQuiet_applyCopy _ _ _)).sqTrans t2).sqTrans (ih _ _ _))
      · dsimp only
        cases env.retryRes src (env.streamDir ++ "/" ++ pyBasename (rstripSlashes src))
        · dsimp only
          split
          next st2 u heq =>
            have t2 := syncQuiet_invokeRB env
              (applyCopy (emit st (Event.itemStart src)) src
                (env.streamDir ++ "/" ++ pyBasename (rstripSlashes src))) rb
            rw [heq] at t2
            exact (((h0.sqTrans (syncQuiet_applyCopy _ _ _)).sqTrans t2).sqTrans (ih _ _ _))
          next st2 m heq =>
            have t2 := syncQuiet_invokeRB env
              (applyCopy (emit st (Event.itemStart src)) src
                (env.streamDir ++ "/" ++ pyBasename (rstripSlashes src))) rb
            rw [heq] at t2
            exact (((h0.sqTrans (syncQuiet_applyCopy _ _ _)).sqTrans t2).sqTrans (ih _ _ _))
          next st2 e heq =>
            have t2 := syncQuiet_invokeRB env
              (applyCopy (emit st (Event.itemStart src)) src
                (env.streamDir ++ "/" ++ pyBasename (rstripSlashes src))) rb
            rw [heq] at t2
            exact (((h0.sqTrans (syncQuiet_applyCopy _ _ _)).sqTrans t2).sqTrans (ih _ _ _))
        · exact h0.sqTrans (ih _ _ _)
        · exact h0.sqTrans (ih _ _ _)
      · exact h0.sqTrans (ih _ _ _)
    · rw [if_neg hd]
      cases env.copy2Res src env.streamDir
      · dsimp only
        split
        next st2 u heq =>
          have t2 := syncQuiet_invokeRB env
            (applyCopyInto (emit st (Event.itemStart src)) src env.streamDir) rb
          rw [heq] at t2
          exact (((h0.sqTrans (syncQuiet_applyCopyInto _ _ _)).sqTrans t2).sqTrans (ih _ _ _))
        next st2 m heq =>
          have t2 := syncQuiet_invokeRB env
            (applyCopyInto (emit st (Event.itemStart src)) src env.streamDir) rb
          rw [heq] at t2
          exact (((h0.sqTrans (syncQuiet_applyCopyInto _ _ _)).sqTrans t2).sqTrans (ih _ _ _))
        next st2 e heq =>
          have t2 := syncQuiet_invokeRB env
            (applyCopyInto (emit st (Event.itemStart src)) src env.streamDir) rb
          rw [heq] at t2
          exact (((h0.sqTrans (syncQuiet_applyCopyInto _ _ _)).sqTrans t2).sqTrans (ih _ _ _))
      · exact h0.sqTrans (ih _ _ _)
      · exact h0.sqTrans (ih _ _ _)

theorem batchMoveLoop_syncQuiet (env : Env) :
    ∀ (items : List BatchItem) (st : St) (moved : List String)
      (errs : List (String × String)),
      SyncQuiet st (batchMoveLoop env items st moved errs).1 := by
  intro items
  induction items with
  | nil =>
    intro st moved errs
    exact SyncQuiet.sqRefl st
  | cons it rest ih =>
    intro st moved errs
    obtain ⟨src, nm, rb⟩ := it
    simp only [batchMoveLoop]
    have h0 : SyncQuiet st (emit st (Event.itemStart src)) :=
      syncQuiet_emit st _ rfl
    by_cases hd : env.isDir src = true
    · rw [if_pos hd]
      cases env.moveRes src (env.streamDir ++ "/" ++ pyBasename (rstripSlashes src))
      · exact (h0.sqTrans (syncQuiet_applyMove _ _ _)).sqTrans (ih _ _ _)
      · dsimp only
        cases env.retryRes src (env.streamDir ++ "/" ++ pyBasename (rstripSlashes src))
        · exact (h0.sqTrans (syncQuiet_applyMove _ _ _)).sqTrans (ih _ _ _)
        · exact h0.sqTrans (ih _ _ _)
        · exact h0.sqTrans (ih _ _ _)
      · exact h0.sqTrans (ih _ _ _)
    · rw [if_neg hd]
      cases env.moveRes src env.streamDir
      · exact (h0.sqTrans (syncQuiet_applyMoveInto _ _ _)).sqTrans (ih _ _ _)
      · exact h0.sqTrans (ih _ _ _)
      · exact h0.sqTrans (ih _ _ _)

theorem sync_events (env : Env) (st : St) :
    (sync_yandex_disk env st).1 = emit st Event.daemonSync := by
  unfold sync_yandex_disk
  cases env.syncResp <;> rfl

theorem events_shape1 (L : St) (mA : String) (sA : Sev) :
    (stNotify (emit L Event.daemonSync) mA sA).events
      = L.events ++ Event.daemonSync :: [Event.notify mA sA] := by
  simp [stNotify, emit]

theorem events_shape2 (L : St) (mA mB : String) (sA sB : Sev) :
    (stNotify (stNotify (emit L Event.daemonSync) mA sA) mB sB).events
      = L.events ++ Event.daemonSync :: [Event.notify mA sA, Event.notify mB sB] := by
  simp [stNotify, emit]

theorem shape1_exists (st0 L : St) (d : List Event) (mA : String) (sA : Sev)
    (hd : L.events = st0.events ++ d) (hs : syncCount d = 0) :
    ∃ pre post, (stNotify (emit L Event.daemonSync) mA sA).events
        = st0.events ++ pre ++ Event.daemonSync :: post ∧
      syncCount pre = 0 ∧ ∀ e ∈ post, isNotifyEv e = true := by
  refine ⟨d, [Event.notify mA sA], ?_, hs, ?_⟩
  · rw [events_shape1, hd]
  · intro e he
    rcases List.mem_cons.mp he with rfl | he1
    · rfl
    · exact absurd he1 (List.not_mem_nil e)

theorem shape2_exists (st0 L : St) (d : List Event) (mA mB : String) (sA sB : Sev)
    (hd : L.events = st0.events ++ d) (hs : syncCount d = 0) :
    ∃ pre post, (stNotify (stNotify (emit L Event.daemonSync) mA sA) mB sB).events
        = st0.events ++ pre ++ Event.daemonSync :: post ∧
      syncCount pre = 0 ∧ ∀ e ∈ post, isNotifyEv e = true := by
  refine ⟨d, [Event.notify mA sA, Event.notify mB sB], ?_, hs, ?_⟩
  · rw [events_shape2, hd]
  · intro e he
    rcases List.mem_cons.mp he with rfl | he1
    · rfl
    · rcases List.mem_cons.mp he1 with rfl | he2
      · rfl
      · exact absurd he2 (List.not_mem_nil e)

/-- The copy-all handler issues exactly one sync, after the whole item
loop, followed only by notifications. -/
theorem handle_batch_add_events (env : Env) (st : St) (items : List BatchItem) :
    ∃ pre post, (handle_batch_add_to_stream env st items).1.events
        = st.events ++ pre ++ Event.daemonSync :: post ∧
      syncCount pre = 0 ∧ ∀ e ∈ post, isNotifyEv e = true := by
  obtain ⟨d, hd, hs⟩ := batchAddLoop_syncQuiet env items st [] []
  simp only [handle_batch_add_to_stream]
  split
  · rw [sync_events env _]
    dsimp only
    exact shape2_exists st _ d _ _ _ _ hd hs
  · split
    · rw [sync_events env _]
      dsimp only
      exact shape1_exists st _ d _ _ hd hs
    · rw [sync_events env _]
      dsimp only
      exact shape1_exists st _ d _ _ hd hs

/-- The move-all handler issues exactly one sync, after the whole item
loop, followed only by notifications. -/
theorem handle_batch_move_events (env : Env) (st : St) (items : List BatchItem) :
    ∃ pre post, (handle_batch_move_to_stream env st items).1.events
        = st.events ++ pre ++ Event.daemonSync :: post ∧
      syncCount pre = 0 ∧ ∀ e ∈ post, isNotifyEv e = true := by
  obtain ⟨d, hd, hs⟩ := batchMoveLoop_syncQuiet env items st [] []
  simp only [handle_batch_move_to_stream]
  split
  · rw [sync_events env _]
    dsimp only
    exact shape2_exists st _ d _ _ _ _ hd hs
  · split
    · rw [sync_events env _]
      dsimp only
      exact shape1_exists st _ d _ _ hd hs
    · rw [sync_events env _]
      dsimp only
      exact shape1_exists st _ d _ _ hd hs

/-- The batch preprocessing loop aborts only on model-fuel exhaustion. -/
theorem batchPrep_abort (env : Env) (cmd : String) (ic : Bool) :
    ∀ (paths : List String) (st : St) (acc : List BatchItem)
      (errs : List (String × String)) (o : Outcome),
      (batchPrep env cmd ic paths st acc errs).2.2.2 = some o →
      o ≠ Outcome.normal := by
  intro paths
  induction paths with
  | nil =>
    intro st acc errs o h
    exact absurd h (by simp [batchPrep])
  | cons p rest ih =>
    intro st acc errs o h
    rw [batchPrep] at h
    split at h
    · exact ih _ _ _ o h
    · exact ih _ _ _ o h
    · dsimp only at h
      rw [← Option.some.inj h]
      simp
    · dsimp only at h
      rw [← Option.some.inj h]
      simp

theorem syncQuiet_shift (st stMid : St) (res : St × Outcome)
    (hmid : SyncQuiet st stMid)
    (hshape : ∃ pre post, res.1.events = stMid.events ++ pre ++ Event.daemonSync :: post ∧
      syncCount pre = 0 ∧ ∀ e ∈ post, isNotifyEv e = true) :
    ∃ pre post, res.1.events = st.events ++ pre ++ Event.daemonSync :: post ∧
      syncCount pre = 0 ∧ ∀ e ∈ post, isNotifyEv e = true := by
  obtain ⟨d, hd, hds⟩ := hmid
  obtain ⟨pre, post, he, hp, hn⟩ := hshape
  refine ⟨d ++ pre, post, ?_, ?_, hn⟩
  · rw [he, hd]
    simp [List.append_assoc]
  · rw [syncCount_append]
    omega

/-- C4: a non-empty copy-all or move-all batch that completes issues
exactly one external sync call, placed after all per-item operations (only
notification events follow it). -/
theorem c4_batch_single_sync (env : Env) (st : St) (cmd : String) (paths : List String)
    (hcmd : cmd = "FileAddToStream" ∨ cmd = "FileMoveToStream")
    (hne : paths ≠ [])
    (hnorm : (handle_batch_command env st cmd paths).2 = Outcome.normal) :
    syncCount (handle_batch_command env st cmd paths).1.events
      = syncCount st.events + 1 ∧
    ∃ pre post, (handle_batch_command env st cmd paths).1.events
        = st.events ++ pre ++ Event.daemonSync :: post ∧
      syncCount pre = 0 ∧ ∀ e ∈ post, isNotifyEv e = true := by
  have hshape : ∃ pre post, (handle_batch_command env st cmd paths).1.events
      = st.events ++ pre ++ Event.daemonSync :: post ∧
      syncCount pre = 0 ∧ ∀ e ∈ post, isNotifyEv e = true := by
    unfold handle_batch_command at hnorm ⊢
    rw [if_neg hne] at hnorm ⊢
    rcases hcmd with rfl | rfl <;> dsimp only at hnorm ⊢
    · rcases hprep : batchPrep env "FileAddToStream"
          (decide ("FileAddToStream" = "FileAddToStream")) paths st [] []
        with ⟨st1, items, prepErrs, ab⟩
      cases ab with
      | some o =>
        rw [hprep] at hnorm
        dsimp only at hnorm
        exact absurd hnorm (batchPrep_abort env "FileAddToStream" _ paths st [] [] o
          (by rw [hprep]))
      | none =>
        dsimp only
        have hprepq : SyncQuiet st st1 := by
          have := batchPrep_syncQuiet env "FileAddToStream"
            (decide ("FileAddToStream" = "FileAddToStream")) paths st [] []
          rw [hprep] at this
          exact this
        by_cases hpe : prepErrs ≠ []
        · rw [if_pos hpe]
          rw [if_pos (by decide)]
          exact syncQuiet_shift st _ _
            (hprepq.sqTrans (syncQuiet_emit st1 (Event.notify "Batch processing errors" Sev.error) rfl))
            (handle_batch_add_events env _ items)
        · rw [if_neg hpe]
          rw [if_pos (by decide)]
          exact syncQuiet_shift st st1 _ hprepq (handle_batch_add_events env st1 items)
    · rcases hprep : batchPrep env "FileMoveToStream"
          (decide ("FileMoveToStream" = "FileAddToStream")) paths st [] []
        with ⟨st1, items, prepErrs, ab⟩
      cases ab with
      | some o =>
        rw [hprep] at hnorm
        dsimp only at hnorm
        exact absurd hnorm (batchPrep_abort env "FileMoveToStream" _ paths st [] [] o
          (by rw [hprep]))
      | none =>
        dsimp only
        have hprepq : SyncQuiet st st1 := by
          have := batchPrep_syncQuiet env "FileMoveToStream"
            (decide ("FileMoveToStream" = "FileAddToStream")) paths st [] []
          rw [hprep] at this
          exact this
        by_cases hpe : prepErrs ≠ []
        · rw [if_pos hpe]
          rw [if_neg (by decide), if_pos (by rfl)]
          exact syncQuiet_shift st _ _
            (hprepq.sqTrans (syncQuiet_emit st1 (Event.notify "Batch processing errors" Sev.error) rfl))
            (handle_batch_move_events env _ items)
        · rw [if_neg hpe]
          rw [if_neg (by decide), if_pos (by rfl)]
          exact syncQuiet_shift st st1 _ hprepq (handle_batch_move_events env st1 items)
  refine ⟨?_, hshape⟩
  obtain ⟨pre, post, he, hp, hn⟩ := hshape
  have hpost : syncCount post = 0 :=
    countP_eq_zero_of_all_notify post hn isSyncEv (fun e he => by
      cases e <;> simp [isNotifyEv, isSyncEv] at *)
  have h1 : syncCount (Event.daemonSync :: post) = syncCount post + 1 := by
    simp [syncCount, List.countP_cons, isSyncEv]
  rw [he, syncCount_append, syncCount_append, h1, hp, hpost]

/-- Witness for C4 at a concrete input: a two-item copy batch issues
exactly one sync. -/
theorem c4_batch_single_sync_witness :
    syncCount (handle_batch_command demoEnv (initSt [] none) "FileAddToStream"
      ["/o/a.txt", "/o/b.txt"]).1.events
      = syncCount (initSt [] none).events + 1 ∧
    ∃ pre post, (handle_batch_command demoEnv (initSt [] none) "FileAddToStream"
        ["/o/a.txt", "/o/b.txt"]).1.events
        = (initSt [] none).events ++ pre ++ Event.daemonSync :: post ∧
      syncCount pre = 0 ∧ ∀ e ∈ post, isNotifyEv e = true :=
  c4_batch_single_sync demoEnv (initSt [] none) "FileAddToStream" ["/o/a.txt", "/o/b.txt"]
    (Or.inl rfl) (by decide) (by decide)

/-! ## C9 — clipboard protocol of a one-by-one publish batch -/

/-- Input paths of the concrete three-item publish batch. -/
def c9Paths : List String := ["/r/yaMedia/a.txt", "/r/yaMedia/b.txt", "/r/yaMedia/c.txt"]

/-- Start state of the concrete batch: the three files exist inside the
synced root and the clipboard holds prior user content. -/
def c9St : St := initSt c9Paths (some "prior")

/-- C9 counterexample: a three-item one-by-one publish batch in which every
item succeeds performs seven clipboard writes (a link write inside
publish_file and a restore write per item, plus the final joined write),
not exactly one; the final write does leave the three newline-joined links
on the clipboard. -/
theorem c9_single_write_counterexample :
    (runItems demoEnv "PublishToYandex" c9Paths c9St [] 0 []).2
      = ([], 3, ["https://yadi.sk/d/x", "https://yadi.sk/d/x", "https://yadi.sk/d/x"],
          none) ∧
    (handle_individual_commands demoEnv "PublishToYandex" c9Paths c9St).2
      = Outcome.normal ∧
    clipWriteCount
      (handle_individual_commands demoEnv "PublishToYandex" c9Paths c9St).1.events = 7 ∧
    ¬ clipWriteCount
      (handle_individual_commands demoEnv "PublishToYandex" c9Paths c9St).1.events = 1 ∧
    (handle_individual_commands demoEnv "PublishToYandex" c9Paths c9St).1.clip
      = some "https://yadi.sk/d/x\nhttps://yadi.sk/d/x\nhttps://yadi.sk/d/x" := by
  decide

theorem c9_item_trace (env : Env) (cmd : String) (st0 : St) (p s out : String)
    (hclip : st0.clip = some s) (hs : s ≠ "")
    (hcmd : cmd = "PublishToYandexCom" ∨ cmd = "PublishToYandex")
    (hp : p ≠ "") (hin : strStartsWith p (env.yaDisk ++ "/") = true)
    (hout : env.publishResp p = some out)
    (herr : hasErrorIndicator (pyStrip out) = false)
    (hnoren : should_rename_file env st0.fs p (pyBasename p) false cmd = false) :
    ∃ l, stepItem env cmd st0 p =
      ⟨{ fs := st0.fs, clip := some s, events := st0.events ++
          [Event.itemStart p, Event.clipRead, Event.daemonPublish p,
           Event.clipWrite (if cmd = "PublishToYandexCom" then create_com_link (pyStrip out)
             else pyStrip out),
           Event.notify ("Published " ++ pyBasename p) Sev.info,
           Event.clipRead, Event.clipWrite s, Event.renameBackCall p] },
        none, true, l, none⟩ := by
  have hclip2 : (emit st0 (Event.itemStart p)).clip = some s := hclip
  have hnoren2 : should_rename_file env (emit st0 (Event.itemStart p)).fs p (pyBasename p)
      false cmd = false := hnoren
  have hres : resolveConflictStep env (emit st0 (Event.itemStart p)) p cmd
      = (emit st0 (Event.itemStart p), Except.ok (p, pyBasename p, false)) := by
    simp only [resolveConflictStep, parse_file_info, rename_file_if_needed, if_neg hp, hin,
      Bool.not_true]
    rw [hnoren2]
    simp
  have hiso : (parse_file_info env p).2.2.2 = false := by
    simp [parse_file_info, if_neg hp, hin]
  rcases hcmd with rfl | rfl
  · refine ⟨if optTruthy (some (create_com_link (pyStrip out))) = true
        then some (create_com_link (pyStrip out)) else none, ?_⟩
    simp only [stepItem, hres]
    simp only [hiso, stepBody, handle_publish_command_collect_link, clipboard_get_text,
      publish_file, hout, herr, hclip2, copy_to_clipboard, stNotify, emit,
      rename_back_run, optTruthy, hs]
    simp [optTruthy, hclip, hs, List.append_assoc]
  · refine ⟨if optTruthy (some (pyStrip out)) = true
        then some (pyStrip out) else none, ?_⟩
    simp only [stepItem, hres]
    simp only [hiso, stepBody, handle_publish_command_collect_link, clipboard_get_text,
      publish_file, hout, herr, hclip2, copy_to_clipboard, stNotify, emit,
      rename_back_run, optTruthy, hs]
    simp [optTruthy, hclip, hs, List.append_assoc]

/-- C9: in a one-by-one publish batch whose item loop finishes with no
abort, no recorded error and a non-empty link collection, the summary step
performs exactly one further clipboard write, whose content is the
newline-join of all collected links; that write is the last clipboard
event (only the aggregated success notification follows it), it is the
final clipboard content, and the handler returns normally.  The clipboard
saving and restoring, however, happens per item, not across the batch: a
successful publish item on a clean inside path first writes the published
link to the clipboard (inside publish_file) and then restores the
clipboard content saved at the start of that same item, so each item adds
two clipboard writes before the final joined write. -/
theorem c9_clipboard_batch (env : Env) (cmd : String) (paths : List String) (st : St)
    (habort : (runItems env cmd paths st [] 0 []).2.2.2.2 = none)
    (hlinks : (runItems env cmd paths st [] 0 []).2.2.2.1 ≠ [])
    (herrs : (runItems env cmd paths st [] 0 []).2.1 = []) :
    ((handle_individual_commands env cmd paths st).1.clip
        = some (pyJoin "\n" (runItems env cmd paths st [] 0 []).2.2.2.1) ∧
      (handle_individual_commands env cmd paths st).1.events
        = (runItems env cmd paths st [] 0 []).1.events
          ++ [Event.clipWrite (pyJoin "\n" (runItems env cmd paths st [] 0 []).2.2.2.1),
              Event.notify ("Published "
                ++ toString (runItems env cmd paths st [] 0 []).2.2.2.1.length
                ++ " items. All links copied") Sev.info] ∧
      clipWriteCount (handle_individual_commands env cmd paths st).1.events
        = clipWriteCount (runItems env cmd paths st [] 0 []).1.events + 1 ∧
      (handle_individual_commands env cmd paths st).2 = Outcome.normal) ∧
    ∀ (st0 : St) (p s out : String),
      st0.clip = some s → s ≠ "" →
      (cmd = "PublishToYandexCom" ∨ cmd = "PublishToYandex") →
      p ≠ "" → strStartsWith p (env.yaDisk ++ "/") = true →
      env.publishResp p = some out → hasErrorIndicator (pyStrip out) = false →
      should_rename_file env st0.fs p (pyBasename p) false cmd = false →
      ∃ l, stepItem env cmd st0 p =
        ⟨{ fs := st0.fs, clip := some s, events := st0.events ++
            [Event.itemStart p, Event.clipRead, Event.daemonPublish p,
             Event.clipWrite (if cmd = "PublishToYandexCom" then create_com_link (pyStrip out)
               else pyStrip out),
             Event.notify ("Published " ++ pyBasename p) Sev.info,
             Event.clipRead, Event.clipWrite s, Event.renameBackCall p] },
          none, true, l, none⟩ := by
  constructor
  · rcases hrunEq : runItems env cmd paths st [] 0 [] with ⟨st1, errs, cnt, links, ab⟩
    rw [hrunEq] at habort hlinks herrs
    dsimp only at habort hlinks herrs
    subst habort
    subst herrs
    dsimp only
    simp only [handle_individual_commands]
    rw [hrunEq]
    dsimp only
    simp only [individualSummary]
    rw [if_pos hlinks]
    rw [if_neg (show ¬((([] : List (String × String)) ≠ []) ∧ cnt > 0) from
      fun h => h.1 rfl)]
    rw [if_neg (show ¬(([] : List (String × String)) ≠ []) from fun h => h rfl)]
    rw [if_neg (show ¬(cnt > 1 ∧ links = []) from fun h => hlinks h.2)]
    refine ⟨rfl, ?_, ?_, rfl⟩
    · simp [copy_to_clipboard, stNotify, emit, List.append_assoc]
    · simp [copy_to_clipboard, stNotify, emit, clipWriteCount, List.countP_append,
        List.countP_cons, isClipWriteEv]
  · intro st0 p s out hclip hs hcmd2 hp hin hout herr hnoren
    exact c9_item_trace env cmd st0 p s out hclip hs hcmd2 hp hin hout herr hnoren

/-- Witness for C9 at a concrete input: the three-item all-success publish
batch satisfies the loop-completion hypotheses, ends with the joined links
on the clipboard after one extra write, and its first item restores the
saved clipboard content. -/
theorem c9_clipboard_batch_witness :
    ((runItems demoEnv "PublishToYandex" c9Paths c9St [] 0 []).2.2.2.2 = none ∧
      (runItems demoEnv "PublishToYandex" c9Paths c9St [] 0 []).2.2.2.1 ≠ [] ∧
      (runItems demoEnv "PublishToYandex" c9Paths c9St [] 0 []).2.1 = []) ∧
    (handle_individual_commands demoEnv "PublishToYandex" c9Paths c9St).1.clip
      = some (pyJoin "\n" (runItems demoEnv "PublishToYandex" c9Paths c9St [] 0 []).2.2.2.1) ∧
    clipWriteCount
        (handle_individual_commands demoEnv "PublishToYandex" c9Paths c9St).1.events
      = clipWriteCount (runItems demoEnv "PublishToYandex" c9Paths c9St [] 0 []).1.events
        + 1 ∧
    (stepItem demoEnv "PublishToYandex" c9St "/r/yaMedia/a.txt").st.clip = some "prior" := by
  have h := c9_clipboard_batch demoEnv "PublishToYandex" c9Paths c9St
    (by decide) (by decide) (by decide)
  refine ⟨⟨by decide, by decide, by decide⟩, h.1.1, h.1.2.2.1, ?_⟩
  obtain ⟨l, hl⟩ := h.2 c9St "/r/yaMedia/a.txt" "prior" "https://yadi.sk/d/x" rfl (by decide)
    (Or.inr rfl) (by decide) (by decide) rfl (by decide) (by decide)
  rw [hl]

end YdMenu
